import Mathlib

/-!
# Verification of the sybil-shield analysis engine

A shallow embedding of the analysis engine of `src/lib/analyze.ts` together
with its helpers `src/lib/profile.ts` and `src/lib/scam.ts`, and proofs
settling the frozen claims about it.

Modelling conventions:
* JavaScript numbers are idealised: counters are `Nat`, millisecond instants
  are `Int`, ratios and settings are `Rat`, and quantities built with
  `Math.log` / `Math.sqrt` live in `ℝ`.
* A `timestamp` string is modelled by its parse result `Option Int`
  (`new Date(s).getTime()` gives a finite value or `NaN`); likewise
  `actorCreatedAt` is `Option (Option Int)`: `none` for an absent/empty
  field, `some none` for a present string that does not parse.
* JavaScript `Map`/`Set` iteration order is insertion order; sets are
  modelled as `List.dedupFirst`-style first-occurrence lists. Plain-object
  key enumeration instead lists array-index keys first in ascending numeric
  order, then the rest in insertion order (`jsObjectKeyOrder`).
* The WHATWG `URL` platform builtin is modelled by a simplified concrete
  parser (`parseUrl`); no claim depends on its details.
-/

/-- Deduplicate, keeping the first occurrence of each element; `seen` holds
the elements already emitted. JavaScript `Set` and `Map` iterate in insertion
order, so a set built by repeated `add` lists each element at its first
occurrence (`List.dedup` of Mathlib keeps last occurrences instead). -/
def dedupFirstAux {α : Type} [DecidableEq α] (seen : List α) : List α → List α
  | [] => []
  | x :: xs =>
    if x ∈ seen then dedupFirstAux seen xs
    else x :: dedupFirstAux (x :: seen) xs

/-- JS-set deduplication: keep the first occurrence of each element. -/
def List.dedupFirst {α : Type} [DecidableEq α] (l : List α) : List α :=
  dedupFirstAux [] l

lemma dedupFirstAux_sublist {α : Type} [DecidableEq α] (seen : List α) :
    ∀ l : List α, (dedupFirstAux seen l).Sublist l := by
  intro l
  induction l generalizing seen with
  | nil => simp [dedupFirstAux]
  | cons x xs ih =>
    unfold dedupFirstAux
    split
    · exact (ih seen).trans (List.sublist_cons_self x xs)
    · exact (ih (x :: seen)).cons₂ x

lemma dedupFirst_sublist {α : Type} [DecidableEq α] (l : List α) :
    l.dedupFirst.Sublist l :=
  dedupFirstAux_sublist [] l

lemma dedupFirst_length_le {α : Type} [DecidableEq α] (l : List α) :
    l.dedupFirst.length ≤ l.length :=
  (dedupFirst_sublist l).length_le

lemma mem_dedupFirstAux {α : Type} [DecidableEq α] (seen : List α)
    (l : List α) (a : α) : a ∈ dedupFirstAux seen l ↔ a ∈ l ∧ a ∉ seen := by
  induction l generalizing seen with
  | nil => simp [dedupFirstAux]
  | cons x xs ih =>
    unfold dedupFirstAux
    split
    · rename_i hx
      rw [ih]
      constructor
      · rintro ⟨h1, h2⟩
        exact ⟨List.mem_cons_of_mem x h1, h2⟩
      · rintro ⟨h1, h2⟩
        rcases List.mem_cons.mp h1 with rfl | h1
        · exact absurd hx h2
        · exact ⟨h1, h2⟩
    · rename_i hx
      simp only [List.mem_cons, ih]
      constructor
      · rintro (rfl | ⟨h1, h2⟩)
        · exact ⟨Or.inl rfl, hx⟩
        · exact ⟨Or.inr h1, fun hs => h2 (Or.inr hs)⟩
      · rintro ⟨rfl | h1, h2⟩
        · exact Or.inl rfl
        · by_cases hax : a = x
          · exact Or.inl hax
          · exact Or.inr ⟨h1, fun hs => hs.elim hax h2⟩

lemma mem_dedupFirst {α : Type} [DecidableEq α] (l : List α) (a : α) :
    a ∈ l.dedupFirst ↔ a ∈ l := by
  rw [List.dedupFirst, mem_dedupFirstAux]
  simp

lemma nodup_dedupFirstAux {α : Type} [DecidableEq α] (seen : List α)
    (l : List α) : (dedupFirstAux seen l).Nodup := by
  induction l generalizing seen with
  | nil => simp [dedupFirstAux]
  | cons x xs ih =>
    unfold dedupFirstAux
    split
    · exact ih seen
    · refine List.Nodup.cons ?_ (ih (x :: seen))
      intro hmem
      exact ((mem_dedupFirstAux _ _ _).mp hmem).2 (List.mem_cons_self x seen)

namespace SybilShield

/-- `LogEntry` of `analyze.ts` (lines 5-23); `timestamp` and `actorCreatedAt`
are represented by their parse results, see the module conventions. -/
structure LogEntry where
  timestamp : Option Int
  actor : String
  target : String
  action : String
  platform : String
  bio : Option String := none
  links : Option (List String) := none
  followerCount : Option ℚ := none
  followingCount : Option ℚ := none
  amount : Option ℚ := none
  actorCreatedAt : Option (Option Int) := none
  deriving Repr, DecidableEq

/-- `AnalysisSettings` of `analyze.ts` (lines 43-60): counts are `Nat`,
durations and thresholds `ℚ`. -/
structure AnalysisSettings where
  threshold : ℚ
  minClusterSize : ℕ
  timeBinMinutes : ℚ
  waveMinCount : ℕ
  waveMinActors : ℕ
  positiveActions : List String
  churnActions : List String
  rapidActionsPerMinuteThreshold : ℚ
  entropyMinTotalActions : ℕ
  burstWindowSeconds : ℚ
  burstMinCount : ℕ
  burstMinActors : ℕ
  velocityWindowSeconds : ℚ
  velocityMaxActionsInWindow : ℕ
  sessionGapMinutes : ℚ
  actionNgramSize : ℕ
  deriving Repr, DecidableEq

/-- Cytoscape `ElementDefinition`: a node `{id, label}` or an edge
`{source, target, type: 'interaction'}` (analyze.ts lines 177 and 185). -/
inductive Element where
  | node (id label : String)
  | edge (source target : String)
  deriving Repr, DecidableEq

/-- Whether an element is an edge record. -/
def Element.isEdge : Element → Bool
  | .node _ _ => false
  | .edge _ _ => true

/-- `DetailedCluster` of `analyze.ts` (lines 25-31). -/
structure DetailedCluster where
  clusterId : ℕ
  members : List String
  density : ℚ
  conductance : ℚ
  externalEdges : ℕ
  deriving Repr, DecidableEq

/-- The `method` discriminator of a `WaveResult`. -/
inductive WaveMethod where
  | bin
  | window
  deriving Repr, DecidableEq

/-- `WaveResult` of `analyze.ts` (lines 33-41); the ISO window strings are
modelled by the underlying millisecond instants. -/
structure WaveResult where
  windowStart : ℚ
  windowEnd : ℚ
  action : String
  target : String
  actors : List String
  zScore : ℝ
  method : WaveMethod

/-! ## First-occurrence deduplication

JavaScript `Set` and `Map` iterate in insertion order, so a set built by
repeated `add` lists each element at its first occurrence.
(`List.dedup` of Mathlib keeps last occurrences instead.) -/

/-! ## profile.ts -/

/-- Model of the parsed pieces of a WHATWG `URL` that the repository code
inspects (platform builtin; simplified, see module conventions). -/
structure UrlParts where
  protocol : String
  username : String
  password : String
  hostname : String
  pathname : String
  searchKeys : List String
  deriving Repr, DecidableEq

/-- Whether a string is nonempty and all-ASCII-alphabetic (scheme shape). -/
def isSchemeLike (s : String) : Bool :=
  s ≠ "" && s.toList.all (fun c => c.isAlpha)

/-- Split a string at the first occurrence of "://": scheme and remainder. -/
def splitScheme (s : String) : Option (String × String) :=
  match s.splitOn "://" with
  | [] => none
  | [_] => none
  | h :: t => some (h, String.intercalate "://" t)

/-- The query-parameter names of a raw query string (text after `?`). -/
def queryKeys (q : String) : List String :=
  (q.splitOn "&").map (fun kv => (kv.splitOn "=").headD "")

/-- Model of `new URL(s)` restricted to the fields the code reads: `none`
models the constructor throwing. -/
def parseUrl (s : String) : Option UrlParts :=
  match splitScheme s with
  | none => none
  | some (scheme, rest) =>
    if !isSchemeLike scheme then none
    else
      let authority := rest.takeWhile (fun c => c ≠ '/' && c ≠ '?' && c ≠ '#')
      let afterAuth := rest.drop authority.length
      let userinfo := if (authority.splitOn "@").length ≥ 2 then
          String.intercalate "@" ((authority.splitOn "@").dropLast) else ""
      let hostport := (authority.splitOn "@").getLastD ""
      let host := ((hostport.splitOn ":").headD "").toLower
      if host = "" then none
      else
        let path := (afterAuth.takeWhile (fun c => c ≠ '?' && c ≠ '#'))
        let pathname := if path = "" then "/" else path
        let afterPath := afterAuth.drop path.length
        let query := if afterPath.startsWith "?" then
            ((afterPath.drop 1).takeWhile (fun c => c ≠ '#')) else ""
        some
          { protocol := scheme.toLower ++ ":"
            username := (userinfo.splitOn ":").headD ""
            password := if (userinfo.splitOn ":").length ≥ 2 then
                String.intercalate ":" ((userinfo.splitOn ":").drop 1) else ""
            hostname := host
            pathname := pathname
            searchKeys := if query = "" then [] else queryKeys query }

/-- `sanitizeUrlCandidate` (profile.ts lines 3-5): trim, then strip trailing
characters from the class `)]}>,.`. -/
def sanitizeUrlCandidate (candidate : String) : String :=
  let trimmed := candidate.trim
  String.mk ((trimmed.toList.reverse.dropWhile
    (fun c => c = ')' || c = ']' || c = '}' || c = '>' || c = ',' || c = '.')).reverse)

/-- `isValidHttpUrl` (profile.ts lines 7-14). -/
def isValidHttpUrl (url : String) : Bool :=
  match parseUrl url with
  | none => false
  | some parsed => parsed.protocol = "http:" || parsed.protocol = "https:"

/-- `normalizeLinks` (profile.ts lines 16-28): sanitize, keep valid
HTTP(S) URLs, dedupe preserving first occurrence. -/
def normalizeLinks (links : List String) : List String :=
  links.foldl (fun deduped raw =>
    let candidate := sanitizeUrlCandidate raw
    if candidate = "" then deduped
    else if !isValidHttpUrl candidate then deduped
    else if candidate ∈ deduped then deduped
    else deduped ++ [candidate]) []

/-- The suffix of a token starting at its first `http://` / `https://`
occurrence, if any (one regex match of `https?:\/\/[^\s]+` per token). -/
def firstHttpSuffix : List Char → Option String
  | [] => none
  | c :: rest =>
    if "http://".isPrefixOf (String.mk (c :: rest))
        || "https://".isPrefixOf (String.mk (c :: rest)) then
      some (String.mk (c :: rest))
    else firstHttpSuffix rest

/-- `extractLinks` (profile.ts lines 30-33): all matches of
`https?:\/\/[^\s]+` in the bio, normalized. A greedy match swallows the rest
of its whitespace-delimited token, so matches are exactly the suffixes of the
tokens from their first scheme occurrence. -/
def extractLinks (bio : String) : List String :=
  normalizeLinks (((bio.split (fun c => c.isWhitespace)).filter (fun t => t ≠ "")).filterMap
    (fun tok => firstHttpSuffix tok.toList))

/-- The fixed block list of `isSuspiciousDomain` (profile.ts lines 36-48). -/
def suspiciousDomains : List String :=
  ["bit.ly", "tinyurl.com", "t.co", "goo.gl", "rebrand.ly", "cutt.ly",
   "is.gd", "s.id", "shorturl.at", "talent.app", "spam.example.com"]

/-- Whether a hostname is a dotted-quad IPv4 literal (`^\d+\.\d+\.\d+\.\d+$`). -/
def isIpLiteral (host : String) : Bool :=
  let parts := host.splitOn "."
  parts.length = 4 && parts.all (fun p => p ≠ "" && p.toList.all (fun c => c.isDigit))

/-- `isSuspiciousDomain` (profile.ts lines 35-58). -/
def isSuspiciousDomain (url : String) : Bool :=
  match parseUrl url with
  | none => false
  | some parsed =>
    let hostname := parsed.hostname.toLower
    let domain := if hostname.startsWith "www." then hostname.drop 4 else hostname
    if domain.startsWith "xn--" then true
    else if isIpLiteral domain then true
    else suspiciousDomains.any (fun blocked =>
      domain = blocked || domain.endsWith ("." ++ blocked))

/-- `linkDiversityScore` (profile.ts lines 69-79): distinct hostnames over
link count, `1` for an empty list. -/
def linkDiversityScore (links : List String) : ℚ :=
  if links.length = 0 then 1
  else
    let domains := (links.map (fun link =>
      match parseUrl link with
      | some parsed => parsed.hostname
      | none => link)).dedupFirst
    (domains.length : ℚ) / (links.length : ℚ)

/-- `updateProfileAnomalyScore` (profile.ts lines 81-89). -/
def updateProfileAnomalyScore (links : List String)
    (followerCount followingCount : Option ℚ) : ℚ :=
  let ratioPart : ℚ :=
    match followerCount, followingCount with
    | some fr, some fg => if 0 < fg && fr / fg < 1/10 then 1/2 else 0
    | _, _ => 0
  let suspiciousPart : ℚ := if links.any (fun link => isSuspiciousDomain link) then 3/10 else 0
  let diversityPart : ℚ := if linkDiversityScore links < 1/2 then 1/5 else 0
  min (ratioPart + suspiciousPart + diversityPart) 1

/-! ## scam.ts -/

/-- `normalizeHandle` (scam.ts lines 7-9). -/
def normalizeHandle (handle : String) : String :=
  handle.trim.toLower

/-- `handleStem` (scam.ts lines 11-18): keep `[a-z0-9]`, strip trailing digits. -/
def handleStem (handle : String) : String :=
  let alnum := (normalizeHandle handle).toList.filter
    (fun c => ('a' ≤ c && c ≤ 'z') || c.isDigit)
  String.mk (alnum.reverse.dropWhile (fun c => c.isDigit)).reverse

/-- Collapse runs of `_` to a single `_`. -/
def collapseUnderscores : List Char → List Char
  | [] => []
  | [c] => [c]
  | c :: d :: rest =>
    if c = '_' && d = '_' then collapseUnderscores (d :: rest)
    else c :: collapseUnderscores (d :: rest)

/-- `handleShape` (scam.ts lines 20-28): letters to `a`, digits to `d`,
other characters to `_`, runs of `_` collapsed. -/
def handleShape (handle : String) : String :=
  String.mk (collapseUnderscores ((normalizeHandle handle).toList.map
    (fun c => if 'a' ≤ c && c ≤ 'z' then 'a' else if c.isDigit then 'd' else '_')))

/-- Whether the alphanumeric normalization ends in three or more digits
(`/\d{3,}$/` on `normalized.replace(/[^a-z0-9]/g, '')`). -/
def hasNumericSuffix (handle : String) : Bool :=
  let alnum := (normalizeHandle handle).toList.filter
    (fun c => ('a' ≤ c && c ≤ 'z') || c.isDigit)
  3 ≤ (alnum.reverse.takeWhile (fun c => c.isDigit)).length

/-- The number of handles among `handles` sharing the given nonempty stem
(the `stemCounts` map of `computeHandlePatternScores`). -/
def stemCountOf (handles : List String) (stem : String) : ℕ :=
  (handles.filter (fun h => handleStem h = stem)).length

/-- The number of handles among `handles` sharing the given nonempty shape
(the `shapeCounts` map of `computeHandlePatternScores`). -/
def shapeCountOf (handles : List String) (shape : String) : ℕ :=
  (handles.filter (fun h => handleShape h = shape)).length

/-- The per-handle score of `computeHandlePatternScores` (scam.ts lines
52-64): `min(0.5·stemScore + 0.3·shapeScore + numericScore, 1)`. -/
def handlePatternScoreOf (handles : List String) (handle : String) : ℚ :=
  let stem := handleStem handle
  let shape := handleShape handle
  let stemSize : ℕ := if stem = "" then 1 else
    (if stemCountOf handles stem = 0 then 1 else stemCountOf handles stem)
  let shapeSize : ℕ := if shape = "" then 1 else
    (if shapeCountOf handles shape = 0 then 1 else shapeCountOf handles shape)
  let stemScore : ℚ := min (((stemSize : ℚ) - 1) / 10) 1
  let shapeScore : ℚ := min (((shapeSize : ℚ) - 1) / 20) 1
  let numericScore : ℚ := if hasNumericSuffix handle then 2/5 else 0
  min (1/2 * stemScore + 3/10 * shapeScore + numericScore) 1

/-- `levenshtein` (scam.ts lines 90-109), as the textbook edit distance the
dynamic program computes. -/
def levenshtein : List Char → List Char → ℕ
  | [], b => b.length
  | a :: as, [] => (a :: as).length
  | a :: as, b :: bs =>
    if a = b then levenshtein as bs
    else 1 + min (levenshtein as (b :: bs)) (min (levenshtein (a :: as) bs) (levenshtein as bs))

/-- `BRAND_HOSTS` (scam.ts lines 111-123). -/
def brandHosts : List String :=
  ["metamask.io", "opensea.io", "github.com", "discord.com", "telegram.org",
   "t.me", "x.com", "twitter.com", "coinbase.com", "binance.com", "etherscan.io"]

/-- The second-level label of a brand host (`brand.split('.').slice(-2)[0]`). -/
def brandSldOf (brand : String) : String :=
  let labels := (brand.splitOn ".").filter (fun l => l ≠ "")
  ((labels.drop (labels.length - 2)).headD "")

/-- The digit-to-letter swaps of `isLikelyTyposquatHost`
(`0→o, 1→l, 3→e, 5→s, 7→t`). -/
def digitSwap (s : String) : String :=
  String.mk (s.toList.map (fun c =>
    if c = '0' then 'o' else if c = '1' then 'l' else if c = '3' then 'e'
    else if c = '5' then 's' else if c = '7' then 't' else c))

/-- `isLikelyTyposquatHost` (scam.ts lines 125-158). -/
def isLikelyTyposquatHost (host : String) : Bool :=
  let normalized := (if host.startsWith "www." then host.drop 4 else host).toLower
  let labels := (normalized.splitOn ".").filter (fun l => l ≠ "")
  if labels.length < 2 then false
  else
    let domain := String.intercalate "." (labels.drop (labels.length - 2))
    if brandHosts.any (fun brand => domain = brand) then false
    else
      let sld := (labels.drop (labels.length - 2)).headD ""
      if brandHosts.any (fun brand =>
          let bsld := brandSldOf brand
          bsld ≠ "" &&
            (levenshtein sld.toList bsld.toList = 1 ||
             (levenshtein sld.toList bsld.toList = 2 && 6 ≤ sld.length))) then true
      else if sld.toList.any (fun c => c.isDigit) then
        brandHosts.any (fun brand =>
          let bsld := brandSldOf brand
          bsld ≠ "" && levenshtein (digitSwap sld).toList bsld.toList ≤ 1)
      else false

/-- Whether `pat` occurs as a contiguous substring of `s` (JS `includes`). -/
def strContains (s pat : String) : Bool :=
  (List.range (s.length + 1)).any (fun i => pat.isPrefixOf (s.drop i))

/-- `isLikelyPhishingUrl` (scam.ts lines 69-88). -/
def isLikelyPhishingUrl (url : String) : Bool :=
  match parseUrl url with
  | none => false
  | some parsed =>
    let host := parsed.hostname.toLower
    if host.startsWith "xn--" then true
    else if isIpLiteral host then true
    else if 5 ≤ ((host.splitOn ".").filter (fun l => l ≠ "")).length then true
    else if parsed.username ≠ "" || parsed.password ≠ "" then true
    else if isLikelyTyposquatHost host then true
    else if strContains host "miniapp" && strContains host "scam" then true
    else if strContains host "wallet" && strContains host "drain" then true
    else if strContains host "airdrop" && strContains host "free" then true
    else if strContains parsed.pathname "login" && parsed.searchKeys.contains "redirect" then true
    else false

/-! ## analyze.ts: timestamps, graph, components -/

/-- `new Date(l.timestamp).getTime()`, as its parse result. -/
def parseTs (l : LogEntry) : Option Int := l.timestamp

/-- The finite parsed times of the log (`allTimes`, analyze.ts line 130). -/
def parsedTimes (logs : List LogEntry) : List Int := logs.filterMap parseTs

/-- `Math.min` over a list with a fallback for the empty list. -/
def minList (l : List Int) (d : Int) : Int :=
  match l with
  | [] => d
  | x :: xs => xs.foldl min x

/-- `Math.max` over a list with a fallback for the empty list. -/
def maxList (l : List Int) (d : Int) : Int :=
  match l with
  | [] => d
  | x :: xs => xs.foldl max x

/-- `datasetStartMs` (analyze.ts line 131). The `Date.now()` fallback fires
only when no timestamp parses, a case in which the engine later throws before
using the value; it is modelled by `0`. -/
def datasetStartMs (logs : List LogEntry) : Int :=
  minList (parsedTimes logs) 0

/-- The node set of the graph (analyze.ts lines 168, 173-175): all actors and
targets, in first-sighting order. -/
def nodesOf (logs : List LogEntry) : List String :=
  (logs.flatMap (fun l => [l.actor, l.target])).dedupFirst

/-- The positive-action multigraph edges in log order (analyze.ts lines
176-177), as `(source, target)` pairs. -/
def edgesOf (logs : List LogEntry) (positiveActions : List String) : List (String × String) :=
  (logs.filter (fun l => decide (l.action ∈ positiveActions))).map (fun l => (l.actor, l.target))

/-- `positiveOut[a]` (analyze.ts lines 178-181): distinct targets of `a`'s
positive actions, in first-occurrence order. -/
def positiveOutOf (logs : List LogEntry) (positiveActions : List String) (a : String) :
    List String :=
  (((edgesOf logs positiveActions).filter (fun e => decide (e.1 = a))).map (fun e => e.2)).dedupFirst

/-- `positiveIn[t]` (analyze.ts lines 179-181): distinct positive actors onto `t`. -/
def positiveInOf (logs : List LogEntry) (positiveActions : List String) (t : String) :
    List String :=
  (((edgesOf logs positiveActions).filter (fun e => decide (e.2 = t))).map (fun e => e.1)).dedupFirst

/-- The undirected multigraph adjacency `graph[v]` (analyze.ts lines 214-222):
per edge, the source gets the target and vice versa, keeping multiplicity. -/
def adjOf (edges : List (String × String)) (v : String) : List String :=
  edges.flatMap (fun e =>
    (if e.1 = v then [e.2] else []) ++ (if e.2 = v then [e.1] else []))

/-- The simple undirected adjacency `undirected[v]` (analyze.ts lines
192-206): same as `adjOf` with duplicates removed (a JS `Set`). -/
def undirectedOf (edges : List (String × String)) (v : String) : List String :=
  (adjOf edges v).dedupFirst

/-- `outNeighbors[v]` (analyze.ts lines 190-203), with multiplicity. -/
def outNeighborsOf (edges : List (String × String)) (v : String) : List String :=
  (edges.filter (fun e => decide (e.1 = v))).map (fun e => e.2)

/-- `inNeighbors[v]` (analyze.ts lines 191-203), with multiplicity. -/
def inNeighborsOf (edges : List (String × String)) (v : String) : List String :=
  (edges.filter (fun e => decide (e.2 = v))).map (fun e => e.1)

/-- One step of neighbourhood expansion for bounded reachability. -/
def reachStep (adj : String → List String) (cur : List String) : List String :=
  (cur ++ cur.flatMap adj).dedupFirst

/-- The nodes within `fuel` hops of `start`: with `fuel ≥ |nodes|` this is
the connected component the iterative DFS of analyze.ts lines 228-245
discovers (member order may differ from the DFS stack order; no result
depends on member order, only on membership and count). -/
def componentOf (adj : String → List String) (fuel : ℕ) (start : String) : List String :=
  (reachStep adj)^[fuel] [start]

/-- The connected components in discovery order (analyze.ts lines 242-246):
one component per node that is the first of its component in node order. -/
def componentsOf (logs : List LogEntry) (positiveActions : List String) :
    List (List String) :=
  let nodes := nodesOf logs
  let adj := adjOf (edgesOf logs positiveActions)
  let comp := fun v => componentOf adj nodes.length v
  (nodes.filter (fun v => nodes.find? (fun u => decide (u ∈ comp v)) = some v)).map comp

/-- The retained clusters with density and conductance (analyze.ts lines
242-263). -/
def clustersOf (logs : List LogEntry) (positiveActions : List String)
    (minClusterSize : ℕ) : List DetailedCluster :=
  let adj := adjOf (edgesOf logs positiveActions)
  let comps := (componentsOf logs positiveActions).filter
    (fun c => decide (minClusterSize ≤ c.length))
  comps.enum.map (fun p =>
    let component := p.2
    let internalTwice : ℕ :=
      (component.map (fun n => ((adj n).filter (fun m => decide (m ∈ component))).length)).sum
    let internalEdges : ℚ := (internalTwice : ℚ) / 2
    let possibleEdges : ℚ := (component.length : ℚ) * ((component.length : ℚ) - 1) / 2
    let density : ℚ := if 0 < possibleEdges then internalEdges / possibleEdges else 0
    let externalEdges : ℕ :=
      (component.map (fun n => ((adj n).filter (fun m => decide (m ∉ component))).length)).sum
    let totalEdges : ℚ := internalEdges + (externalEdges : ℚ)
    let conductance : ℚ := if 0 < totalEdges then (externalEdges : ℚ) / totalEdges else 0
    { clusterId := p.1, members := component, density := density,
      conductance := conductance, externalEdges := externalEdges })

/-! ## analyze.ts: centrality pack -/

/-- One iteration of `computePageRank` (analyze.ts lines 940-959). -/
def pageRankIter (nodes : List String) (out incoming : String → List String)
    (rank : String → ℚ) : String → ℚ :=
  let N : ℚ := max (nodes.length : ℚ) 1
  let damping : ℚ := 85/100
  let danglingSum : ℚ :=
    (nodes.map (fun n => if (out n).length = 0 then rank n else 0)).sum
  let base : ℚ := (1 - damping) / N
  let danglingShare : ℚ := damping * danglingSum / N
  fun n => base + danglingShare + damping * ((incoming n).map (fun src =>
    if 0 < (out src).length then rank src / ((out src).length : ℚ) else 0)).sum

/-- `computePageRank` (analyze.ts lines 934-962): 20 damped iterations from
the uniform vector. -/
def pageRankOf (nodes : List String) (out incoming : String → List String) : String → ℚ :=
  (pageRankIter nodes out incoming)^[20] (fun _ => 1 / max (nodes.length : ℚ) 1)

/-- One iteration of `computeEigenCentrality` (analyze.ts lines 968-980):
adjacency sum followed by L2 normalization (`Math.sqrt(norm) || 1`). -/
noncomputable def eigenIter (nodes : List String) (undirected : String → List String)
    (v : String → ℝ) : String → ℝ :=
  let sums : String → ℝ := fun n => ((undirected n).map v).sum
  let norm0 : ℝ := Real.sqrt ((nodes.map (fun n => sums n * sums n)).sum)
  let norm : ℝ := if norm0 = 0 then 1 else norm0
  fun n => sums n / norm

/-- `computeEigenCentrality` (analyze.ts lines 964-982): 20 normalized power
iterations from the all-ones vector. -/
noncomputable def eigenCentralityOf (nodes : List String)
    (undirected : String → List String) : String → ℝ :=
  (eigenIter nodes undirected)^[20] (fun _ => 1)

/-- `fnv1a32` (analyze.ts lines 1056-1063): 32-bit FNV-1a over the UTF-16
code units (identifiers are assumed BMP, so code units = code points). -/
def fnv1a32 (s : String) : ℕ :=
  s.toList.foldl (fun h c => ((h ^^^ c.toNat) * 16777619) % 4294967296) 2166136261

/-- `sampleDeterministic` (analyze.ts lines 1049-1054): stable sort by FNV
hash, take the prefix. -/
def sampleDeterministic (nodes : List String) (k : ℕ) : List String :=
  (nodes.mergeSort (fun a b => fnv1a32 a ≤ fnv1a32 b)).take k

/-- The mutable state of one Brandes BFS (analyze.ts lines 995-1006). -/
structure BrandesState where
  stack : List String
  pred : String → List String
  sigma : String → ℚ
  dist : String → Int

/-- The BFS loop of `computeApproxBetweenness` (analyze.ts lines 1008-1023),
with fuel bounding the number of dequeues (each node is enqueued at most
once, so `|nodes| + 1` dequeues suffice). -/
def brandesBFS (undirected : String → List String) :
    ℕ → List String → BrandesState → BrandesState
  | 0, _, st => st
  | _ + 1, [], st => st
  | fuel + 1, v :: queue, st =>
    let st := { st with stack := st.stack ++ [v] }
    let dv := st.dist v
    let next := (undirected v).foldl (fun (acc : List String × BrandesState) w =>
      let q := acc.1
      let st := acc.2
      let enq := if st.dist w < 0 then
          (q ++ [w], { st with dist := Function.update st.dist w (dv + 1) })
        else (q, st)
      let q := enq.1
      let st := enq.2
      let st := if st.dist w = dv + 1 then
          { st with sigma := Function.update st.sigma w (st.sigma w + st.sigma v),
                    pred := Function.update st.pred w (st.pred w ++ [v]) }
        else st
      (q, st)) (queue, st)
    brandesBFS undirected fuel next.1 next.2

/-- The per-source dependency accumulation of Brandes (analyze.ts lines
1025-1034): returns this source's contribution to `out`. -/
def brandesFromSource (undirected : String → List String) (nodes : List String)
    (s : String) : String → ℚ :=
  let init : BrandesState :=
    { stack := [], pred := fun _ => [],
      sigma := Function.update (fun _ => 0) s 1,
      dist := Function.update (fun _ => -1) s 0 }
  let st := brandesBFS undirected (nodes.length + 1) [s] init
  let backStep : ((String → ℚ) × (String → ℚ)) → String → ((String → ℚ) × (String → ℚ)) :=
    fun acc w =>
      let delta := acc.1
      let contrib := acc.2
      let delta := (st.pred w).foldl (fun d v =>
        Function.update d v
          (d v + (st.sigma v / (if st.sigma w = 0 then 1 else st.sigma w)) * (1 + d w))) delta
      let contrib := if w = s then contrib
        else Function.update contrib w (contrib w + delta w)
      (delta, contrib)
  (st.stack.reverse.foldl backStep ((fun _ => 0), (fun _ => 0))).2

/-- `computeApproxBetweenness` (analyze.ts lines 984-1047): sampled Brandes,
scaled by the sample size and max-normalized. -/
def betweennessOf (nodes : List String) (undirected : String → List String) :
    String → ℚ :=
  if nodes.length ≤ 2 then fun _ => 0
  else
    let sampled := sampleDeterministic nodes (min 50 nodes.length)
    let raw : String → ℚ := fun v =>
      (sampled.map (fun s => brandesFromSource undirected nodes s v)).sum
    let scale : ℚ := if 0 < sampled.length then 1 / (sampled.length : ℚ) else 1
    let scaled : String → ℚ := fun v => raw v * scale
    let maxVal : ℚ := (nodes.map scaled).foldl max 0
    if 0 < maxVal then fun v => scaled v / maxVal else scaled

/-! ## analyze.ts: fixed-bin waves

The engine keys `(binKey, action, target)` through nested objects; the bin
key is the ISO string of the epoch-aligned bin start, modelled here by the
millisecond instant itself (the ISO rendering is injective). For an
unparseable timestamp the source throws while building the key
(`new Date(NaN).toISOString()`); these definitions describe the non-throwing
path, on which every timestamp parses, and skip unparseable entries. The
emission order of bin waves (nested first-insertion order in JS) is modelled
as flat first-occurrence order of the triples; no result depends on it. -/

/-- `binSizeMs` (analyze.ts line 267). -/
def binSizeMsOf (timeBinMinutes : ℚ) : ℚ := max 1 timeBinMinutes * 60 * 1000

/-- The epoch-aligned bin start `Math.floor(t / binSizeMs) * binSizeMs`
(analyze.ts line 271). -/
def binStartOf (binSize : ℚ) (t : Int) : ℚ := (⌊(t : ℚ) / binSize⌋ : ℚ) * binSize

/-- The `(binStart, action, target)` key of a log entry whose timestamp
parses (analyze.ts lines 269-277). -/
def binKeyOf (binSize : ℚ) (l : LogEntry) : Option (ℚ × String × String) :=
  (parseTs l).map (fun t => (binStartOf binSize t, l.action, l.target))

/-- The distinct bin keys in first-occurrence order. -/
def binKeysOf (logs : List LogEntry) (binSize : ℚ) : List (ℚ × String × String) :=
  (logs.filterMap (binKeyOf binSize)).dedupFirst

/-- The event count of a bin key (the `count` field, analyze.ts line 276). -/
def binCountOf (logs : List LogEntry) (binSize : ℚ) (key : ℚ × String × String) : ℕ :=
  (logs.filter (fun l => decide (binKeyOf binSize l = some key))).length

/-- The distinct actors of a bin key (the `actors` set, analyze.ts line 277). -/
def binActorsOf (logs : List LogEntry) (binSize : ℚ) (key : ℚ × String × String) :
    List String :=
  ((logs.filter (fun l => decide (binKeyOf binSize l = some key))).map (fun l => l.actor)).dedupFirst

/-- The fixed-bin waves (analyze.ts lines 280-297). -/
def binWavesOf (logs : List LogEntry) (s : AnalysisSettings) : List WaveResult :=
  let binSize := binSizeMsOf s.timeBinMinutes
  (binKeysOf logs binSize).filterMap (fun key =>
    let cnt := binCountOf logs binSize key
    let actors := binActorsOf logs binSize key
    if s.waveMinCount ≤ cnt ∧ s.waveMinActors ≤ actors.length then
      some { windowStart := key.1, windowEnd := key.1 + binSize, action := key.2.1,
             target := key.2.2, actors := actors,
             zScore := (((cnt : ℚ) / max 1 (s.waveMinCount : ℚ) : ℚ) : ℝ),
             method := .bin }
    else none)

/-! ## analyze.ts: sliding-window bursts -/

/-- One event of a `(action, target)` burst group (analyze.ts line 831). -/
structure BurstEvent where
  ts : Int
  actor : String
  deriving Repr, DecidableEq

/-- `burstWindowMs` (analyze.ts line 300). -/
def burstWindowMsOf (burstWindowSeconds : ℚ) : ℚ := max 1 burstWindowSeconds * 1000

/-- The distinct `(action, target)` burst keys, skipping events with
unparseable timestamps or empty action/target (analyze.ts lines 823-832). -/
def burstKeysOf (logs : List LogEntry) : List (String × String) :=
  ((logs.filter (fun l =>
      decide ((parseTs l).isSome = true ∧ l.action ≠ "" ∧ l.target ≠ ""))).map
    (fun l => (l.action, l.target))).dedupFirst

/-- The events of one burst key, in log order (analyze.ts lines 823-832). -/
def burstEventsOf (logs : List LogEntry) (key : String × String) : List BurstEvent :=
  logs.filterMap (fun l =>
    match parseTs l with
    | none => none
    | some t =>
      if l.action = key.1 ∧ l.target = key.2 ∧ l.action ≠ "" ∧ l.target ≠ "" then
        some { ts := t, actor := l.actor }
      else none)

/-- The members of the sliding window ending at index `r` of the time-sorted
event list (analyze.ts lines 850-860): exactly the events at indices
`left..r`, where `left` is minimal with `ts[r] - ts[left] ≤ windowMs`; on a
sorted list that set is the filtered one below. -/
def windowMembers (events : List BurstEvent) (windowMs : ℚ) (r : ℕ) : List BurstEvent :=
  let tr := (events.getD r { ts := 0, actor := "" }).ts
  (events.take (r + 1)).filter (fun e => decide (((tr - e.ts : Int) : ℚ) ≤ windowMs))

/-- The best-window accumulator of `detectWindowBursts` (analyze.ts line 848). -/
structure BurstBest where
  start : Int
  count : ℕ
  actors : List String
  deriving Repr, DecidableEq

/-- The best qualifying window of one key (analyze.ts lines 848-867): first
strict maximum of the window population among windows meeting both minima. -/
def bestWindowOf (events : List BurstEvent) (windowMs : ℚ) (minCount minActors : ℕ) :
    BurstBest :=
  let init : BurstBest :=
    { start := (events.headD { ts := 0, actor := "" }).ts, count := 0, actors := [] }
  (List.range events.length).foldl (fun best r =>
    let w := windowMembers events windowMs r
    let uniqueActors := (w.map (fun e => e.actor)).dedupFirst
    if best.count < w.length ∧ minCount ≤ w.length ∧ minActors ≤ uniqueActors.length then
      { start := (w.headD { ts := 0, actor := "" }).ts, count := w.length,
        actors := uniqueActors }
    else best) init

/-- `durationMs` (analyze.ts lines 836-840). -/
def durationMsOf (logs : List LogEntry) (windowMs : ℚ) : ℚ :=
  let times := parsedTimes logs
  if times.length < 2 then windowMs
  else max 1 ((maxList times 0 - minList times 0 : Int) : ℚ)

/-- The expected window population `(events / durationMs) · windowMs`
(analyze.ts lines 872-873). -/
def zExpected (eventsLen : ℕ) (durationMs windowMs : ℚ) : ℚ :=
  (eventsLen : ℚ) / durationMs * windowMs

/-- The Poisson z-score `(count - expected) / sqrt(max(1e-6, expected))`
(analyze.ts line 874). -/
noncomputable def zScoreReal (count : ℕ) (expected : ℚ) : ℝ :=
  ((count : ℚ) - expected : ℚ) / Real.sqrt ((max (1/1000000) expected : ℚ) : ℝ)

/-- Decidable form of the retention test `z ≥ 2.5` (analyze.ts line 875):
`count - expected` is positive and its square at least `6.25·max(1e-6,
expected)`. The `Number.isFinite` clause never fires since the denominator is
at least `sqrt(1e-6) > 0`. `zAccept_iff` proves the equivalence. -/
def zAccept (count : ℕ) (expected : ℚ) : Bool :=
  decide (expected < (count : ℚ) ∧
    25 * max (1/1000000) expected ≤ 4 * ((count : ℚ) - expected)^2)

/-- A retained burst, carrying the rational data its z-score and window are
built from (`best.start`, `best.count`, the actor set, `expected`). -/
structure RawBurst where
  start : Int
  action : String
  target : String
  actors : List String
  count : ℕ
  expected : ℚ
  deriving Repr, DecidableEq

/-- The per-key retained bursts (analyze.ts lines 842-895), before the
global sort and cap. -/
def rawBurstsOf (logs : List LogEntry) (windowMs : ℚ)
    (minCount minActors : ℕ) : List RawBurst :=
  (burstKeysOf logs).filterMap (fun key =>
    let events := (burstEventsOf logs key).mergeSort (fun a b => a.ts ≤ b.ts)
    if events.length < minCount then none
    else
      let best := bestWindowOf events windowMs minCount minActors
      if best.count < minCount ∨ best.actors.length < minActors then none
      else
        let expected := zExpected events.length (durationMsOf logs windowMs) windowMs
        if zAccept best.count expected then
          some { start := best.start, action := key.1, target := key.2,
                 actors := best.actors, count := best.count, expected := expected }
        else none)

/-- Decidable form of the sort comparator `(a, b) ↦ b.zScore - a.zScore`
(analyze.ts line 898): whether `z(b) ≤ z(a)`, by sign analysis and squaring
of `z = (count - expected) / sqrt(max(1e-6, expected))`. -/
def zDescB (a b : RawBurst) : Bool :=
  let na := (a.count : ℚ) - a.expected
  let nb := (b.count : ℚ) - b.expected
  let ma := max (1/1000000) a.expected
  let mb := max (1/1000000) b.expected
  if nb < 0 then
    (if na < 0 then decide (na^2 * mb ≤ nb^2 * ma) else true)
  else
    (if na < 0 then false else decide (nb^2 * ma ≤ na^2 * mb))

/-- The retained bursts sorted by descending z and capped at 250
(analyze.ts lines 898-899). -/
def trimmedBurstsOf (logs : List LogEntry) (windowMs : ℚ)
    (minCount minActors : ℕ) : List RawBurst :=
  ((rawBurstsOf logs windowMs minCount minActors).mergeSort zDescB).take 250

/-- The trimmed bursts with the clamped settings of analyze.ts lines 300-306. -/
def settingsBurstsOf (logs : List LogEntry) (s : AnalysisSettings) : List RawBurst :=
  trimmedBurstsOf logs (burstWindowMsOf s.burstWindowSeconds)
    (max 1 s.burstMinCount) (max 1 s.burstMinActors)

/-- The `WaveResult` of a retained burst (analyze.ts lines 877-889). -/
noncomputable def RawBurst.toWave (windowMs : ℚ) (rb : RawBurst) : WaveResult :=
  { windowStart := (rb.start : ℚ), windowEnd := (rb.start : ℚ) + windowMs,
    action := rb.action, target := rb.target, actors := rb.actors,
    zScore := zScoreReal rb.count rb.expected, method := .window }

/-- The emitted window bursts of `detectWindowBursts`. -/
noncomputable def windowWavesOf (logs : List LogEntry) (s : AnalysisSettings) :
    List WaveResult :=
  (settingsBurstsOf logs s).map
    (RawBurst.toWave (burstWindowMsOf s.burstWindowSeconds))

/-- The full wave list: bin waves then window bursts (analyze.ts lines
280-307). -/
noncomputable def wavesOf (logs : List LogEntry) (s : AnalysisSettings) : List WaveResult :=
  binWavesOf logs s ++ windowWavesOf logs s

/-- The qualifying bin keys an actor contributed to (analyze.ts lines
412-425). -/
def binWaveKeysOfActor (logs : List LogEntry) (s : AnalysisSettings) (a : String) :
    List (ℚ × String × String) :=
  let binSize := binSizeMsOf s.timeBinMinutes
  (binKeysOf logs binSize).filter (fun key =>
    decide (s.waveMinCount ≤ binCountOf logs binSize key ∧
      s.waveMinActors ≤ (binActorsOf logs binSize key).length ∧
      a ∈ binActorsOf logs binSize key))

/-- `burstActions` of an actor (analyze.ts lines 426-434): the number of
distinct wave keys it contributed to, bin and window keys in a common set
with disjoint namespaces, window keys restricted to the retained top bursts. -/
def burstActionsOf (logs : List LogEntry) (s : AnalysisSettings)
    (a : String) : ℕ :=
  (((binWaveKeysOfActor logs s a).map (fun k => (WaveMethod.bin, k)) ++
    ((settingsBurstsOf logs s).filter (fun rb => decide (a ∈ rb.actors))).map
      (fun rb => (WaveMethod.window, (rb.start : ℚ), rb.action, rb.target))).dedupFirst).length

/-! ## analyze.ts: actor stats -/

/-- The log entries whose `actor` is `a`, in log order. -/
def actorLogsOf (logs : List LogEntry) (a : String) : List LogEntry :=
  logs.filter (fun l => decide (l.actor = a))

/-- `totalActions` (analyze.ts line 344). -/
def totalActionsOf (logs : List LogEntry) (a : String) : ℕ :=
  (actorLogsOf logs a).length

/-- `uniqueTargets` (analyze.ts line 345), in first-occurrence order. -/
def uniqueTargetsOf (logs : List LogEntry) (a : String) : List String :=
  ((actorLogsOf logs a).map (fun l => l.target)).dedupFirst

/-- `churnActions` (analyze.ts line 346). -/
def churnActionsOf (logs : List LogEntry) (churn : List String) (a : String) : ℕ :=
  ((actorLogsOf logs a).filter (fun l => decide (l.action ∈ churn))).length

/-- `firstSeenMs` (analyze.ts lines 347-348): least finite timestamp of the
actor's events. -/
def firstSeenOf (logs : List LogEntry) (a : String) : Option Int :=
  match parsedTimes (actorLogsOf logs a) with
  | [] => none
  | x :: xs => some (xs.foldl min x)

/-- `connections` (analyze.ts line 333): the actor's multigraph degree. -/
def connectionsOf (logs : List LogEntry) (positiveActions : List String) (a : String) : ℕ :=
  (adjOf (edgesOf logs positiveActions) a).length

/-- `clusterSize` (analyze.ts lines 351-355): the size of the retained
cluster containing the node, `0` if none. -/
def clusterSizeOf (logs : List LogEntry) (positiveActions : List String)
    (minClusterSize : ℕ) (a : String) : ℕ :=
  match (clustersOf logs positiveActions minClusterSize).find?
      (fun c => decide (a ∈ c.members)) with
  | some c => c.members.length
  | none => 0

/-- `mutualPositive` (analyze.ts lines 400-409). -/
def mutualPositiveOf (logs : List LogEntry) (positiveActions : List String)
    (a : String) : ℕ :=
  ((positiveOutOf logs positiveActions a).filter
    (fun t => decide (a ∈ positiveOutOf logs positiveActions t))).length

/-! ## analyze.ts: per-actor temporal and behavioral signals -/

/-- The actor's integer-minute buckets (analyze.ts lines 358-366). -/
def minutesOf (logs : List LogEntry) (a : String) : List Int :=
  (parsedTimes (actorLogsOf logs a)).map (fun t => t.fdiv 60000)

/-- The largest multiplicity in a list (max bucket population). -/
def maxCountOf (l : List Int) : ℕ :=
  (l.dedupFirst.map (fun m => l.count m)).foldl max 0

/-- `maxActionsPerMinute` (analyze.ts lines 368-375), `0` for an actor with
no finite timestamps. -/
def maxActionsPerMinuteOf (logs : List LogEntry) (a : String) : ℕ :=
  maxCountOf (minutesOf logs a)

/-- `targetEntropy` (analyze.ts lines 377-398): normalized Shannon entropy
of the actor's target distribution, clamped to `[0, 1]`; `0` when the actor
has at most one distinct target. In the computing branch `k ≥ 2`, so the
falsy-guard `Math.log(k) || 1` never rewrites the divisor. -/
noncomputable def targetEntropyOf (logs : List LogEntry) (a : String) : ℝ :=
  let total := totalActionsOf logs a
  let k := (uniqueTargetsOf logs a).length
  if total ≤ 0 ∨ k ≤ 1 then 0
  else
    let counts : List ℕ := (uniqueTargetsOf logs a).map (fun t =>
      ((actorLogsOf logs a).filter (fun l => decide (l.target = t))).length)
    let H : ℝ := (counts.map (fun c =>
      -(((c : ℚ) / (total : ℚ) : ℚ) : ℝ) * Real.log (((c : ℚ) / (total : ℚ) : ℚ) : ℝ))).sum
    max 0 (min (H / Real.log (k : ℝ)) 1)

/-- The actor's finite timestamps in ascending order (stable sort). -/
def sortedTimesOf (logs : List LogEntry) (a : String) : List Int :=
  (parsedTimes (actorLogsOf logs a)).mergeSort (fun x y => x ≤ y)

/-- The largest sliding-window population of `computeVelocityByActor`
(analyze.ts lines 723-731): as the times are sorted, the two-pointer window
ending at `r` holds exactly the earlier times within `windowMs` of `ts[r]`. -/
def velMaxInWindowOf (times : List Int) (windowMs : ℚ) : ℕ :=
  (List.range times.length).foldl (fun m r =>
    max m ((times.take (r + 1)).filter
      (fun t => decide (((times.getD r 0 - t : Int) : ℚ) ≤ windowMs))).length) 0

/-- The per-actor velocity record (analyze.ts lines 722-736). -/
structure VelocityInfo where
  maxInWindow : ℕ
  maxPerSecond : ℚ
  velocityScore : ℚ
  deriving Repr, DecidableEq

/-- The velocity record of `computeVelocityByActor` (analyze.ts lines
709-739), with the clamped arguments of lines 443-447. -/
def velocityOf (logs : List LogEntry) (s : AnalysisSettings) (a : String) :
    VelocityInfo :=
  let windowMs : ℚ := max 1 s.velocityWindowSeconds * 1000
  let maxCount := velMaxInWindowOf (sortedTimesOf logs a) windowMs
  let windowSeconds : ℚ := max 1 (windowMs / 1000)
  let maxPerSecond : ℚ := (maxCount : ℚ) / windowSeconds
  let threshold : ℕ := max 1 s.velocityMaxActionsInWindow
  let velocityScore : ℚ :=
    if threshold ≤ maxCount then min (((maxCount : ℚ) - threshold) / threshold) 1 else 0
  { maxInWindow := maxCount, maxPerSecond := maxPerSecond, velocityScore := velocityScore }

/-- The actor's UTC hours (analyze.ts lines 741-749): `getUTCHours` is
floor-division by an hour, modulo 24. -/
def hoursOf (logs : List LogEntry) (a : String) : List ℕ :=
  (parsedTimes (actorLogsOf logs a)).map (fun t => ((t.fdiv 3600000) % 24).toNat)

/-- `activeHours` (analyze.ts line 755). -/
def activeHoursOf (logs : List LogEntry) (a : String) : ℕ :=
  ((List.range 24).filter (fun h => decide (0 < (hoursOf logs a).count h))).length

/-- `hourEntropy` (analyze.ts lines 756-764), clamped to `[0, 1]`; the
falsy-guard `Math.log(24) || 1` never fires. -/
noncomputable def hourEntropyOf (logs : List LogEntry) (a : String) : ℝ :=
  let hrs := hoursOf logs a
  let total := hrs.length
  let H : ℝ := (((List.range 24).filter (fun h => decide (0 < hrs.count h))).map (fun h =>
    -(((hrs.count h : ℚ) / (total : ℚ) : ℚ) : ℝ) *
      Real.log (((hrs.count h : ℚ) / (total : ℚ) : ℚ) : ℝ))).sum
  max 0 (min (H / Real.log 24) 1)

/-- `circadianScore` (analyze.ts lines 766-771): `1` for wide high-volume
activity, `0.8` for narrow high-volume activity, the maximum of the two. -/
def circadianScoreOf (logs : List LogEntry) (a : String) : ℚ :=
  let total := (hoursOf logs a).length
  let wide : ℚ := if 20 ≤ activeHoursOf logs a ∧ 200 ≤ total then 1 else 0
  let narrow : ℚ := if activeHoursOf logs a ≤ 2 ∧ 100 ≤ total then 4/5 else 0
  max wide narrow

/-- The clamped n-gram size `Math.min(Math.max(2, n), 5)` (analyze.ts line 449). -/
def ngramNOf (s : AnalysisSettings) : ℕ := min (max 2 s.actionNgramSize) 5

/-- The actor's nonempty action names in time order (analyze.ts lines
779-790): stable sort by finite timestamp, then drop empty actions. -/
def actionSeqOf (logs : List LogEntry) (a : String) : List String :=
  ((((actorLogsOf logs a).filterMap (fun l => (parseTs l).map (fun t => (t, l.action)))).mergeSort
      (fun x y => x.1 ≤ y.1)).map (fun p => p.2)).filter (fun x => decide (x ≠ ""))

/-- The sliding n-grams of a sequence (analyze.ts lines 796-799); the
joined-string gram is modelled by the list of its actions. -/
def ngramsOf (seq : List String) (n : ℕ) : List (List String) :=
  (List.range (seq.length - n + 1)).map (fun i => (seq.drop i).take n)

/-- The per-actor n-gram record (analyze.ts lines 787-811). -/
structure NgramInfo where
  repeatScore : ℚ
  topNgram : List String
  topCount : ℕ
  deriving Repr, DecidableEq

/-- The n-gram record of `computeActionNgramByActor` (analyze.ts lines
778-813): most frequent gram (first-seen wins ties) and its share. -/
def ngramInfoOf (logs : List LogEntry) (a : String) (n : ℕ) : NgramInfo :=
  let seq := actionSeqOf logs a
  if seq.length < n + 2 then { repeatScore := 0, topNgram := [], topCount := 0 }
  else
    let grams := ngramsOf seq n
    let top := grams.dedupFirst.foldl (fun best g =>
      if best.2 < grams.count g then (g, grams.count g) else best) (([] : List String), 0)
    let totalNgrams : ℕ := max 1 (seq.length - n + 1)
    { repeatScore := min ((top.2 : ℚ) / (totalNgrams : ℚ)) 1,
      topNgram := top.1, topCount := top.2 }

/-- Split a sorted timeline into sessions at gaps exceeding the threshold
(analyze.ts lines 672-685). -/
def sessionSplitAux (th : ℚ) (cur : List Int) (prev : Int) : List Int → List (List Int)
  | [] => [cur.reverse]
  | t :: rest =>
    if th < ((t - prev : Int) : ℚ) then cur.reverse :: sessionSplitAux th [t] t rest
    else sessionSplitAux th (t :: cur) t rest

/-- The session segments of a sorted timeline, `[]` for an empty one. -/
def sessionSplit (th : ℚ) (times : List Int) : List (List Int) :=
  match times with
  | [] => []
  | x :: xs => sessionSplitAux th [x] x xs

/-- The per-actor session record (analyze.ts lines 661-704). -/
structure SessionInfo where
  sessionCount : ℕ
  avgSessionMinutes : ℚ
  avgGapMinutes : ℚ
  maxGapMinutes : ℚ
  bottySessionScore : ℚ
  deriving Repr, DecidableEq

/-- The session record of `detectSessionMetrics` (analyze.ts lines 646-707).
Gaps are all positive (they exceed the positive threshold), so
`Math.max(...gaps)` equals a fold of `max` from `0`. -/
def sessionMetricsOf (logs : List LogEntry) (a : String) (thresholdMs : ℚ) :
    SessionInfo :=
  let times := sortedTimesOf logs a
  match sessionSplit thresholdMs times with
  | [] => { sessionCount := 0, avgSessionMinutes := 0, avgGapMinutes := 0,
            maxGapMinutes := 0, bottySessionScore := 0 }
  | seg0 :: segs =>
    let allSegs := seg0 :: segs
    let durations : List ℚ :=
      allSegs.map (fun seg => ((seg.getLastD 0 - seg.headD 0 : Int) : ℚ))
    let gaps : List ℚ :=
      (allSegs.zip segs).map (fun p => ((p.2.headD 0 - p.1.getLastD 0 : Int) : ℚ))
    let sessionCount := durations.length
    let avgSessionMs : ℚ := durations.sum / max 1 (durations.length : ℚ)
    let avgGapMs : ℚ := if gaps.length ≠ 0 then gaps.sum / (gaps.length : ℚ) else 0
    let maxGapMs : ℚ := gaps.foldl max 0
    let shortSessionScore : ℚ :=
      if avgSessionMs ≤ 60000 then 1 else if avgSessionMs ≤ 300000 then 1/2 else 0
    let manySessionScore : ℚ := min ((sessionCount : ℚ) / 10) 1
    { sessionCount := sessionCount, avgSessionMinutes := avgSessionMs / 60000,
      avgGapMinutes := avgGapMs / 60000, maxGapMinutes := maxGapMs / 60000,
      bottySessionScore := min (shortSessionScore * manySessionScore) 1 }

/-- Whether a string matches `^0x[a-fA-F0-9]{40}$` (analyze.ts line 601). -/
def isAddr (x : String) : Bool :=
  x.startsWith "0x" && x.length = 42 &&
    (x.drop 2).toList.all (fun c =>
      c.isDigit || ('a' ≤ c && c ≤ 'f') || ('A' ≤ c && c ≤ 'F'))

/-- The lowercased `(funder, recipient)` pairs of well-formed transfers
(analyze.ts lines 603-611). -/
def transferPairsOf (logs : List LogEntry) : List (String × String) :=
  (logs.filter (fun l =>
    decide (l.action = "transfer" ∧ isAddr l.actor = true ∧ isAddr l.target = true))).map
    (fun l => (l.actor.toLower, l.target.toLower))

/-- The distinct recipients of one funder. -/
def funderTargetsOf (logs : List LogEntry) (funder : String) : List String :=
  (((transferPairsOf logs).filter (fun p => decide (p.1 = funder))).map (fun p => p.2)).dedupFirst

/-- `detectSharedWallets` (analyze.ts lines 599-622): the funders with at
least two recipients that sent to the given wallet, in funder order. Lookup
keys are lowercased recipients, so a lookup by a raw actor id only hits when
the id is already lowercase, exactly as in the source. -/
def sharedWalletsOf (logs : List LogEntry) (wallet : String) : List String :=
  (((transferPairsOf logs).map (fun p => p.1)).dedupFirst).filter (fun f =>
    decide (2 ≤ (funderTargetsOf logs f).length ∧ wallet ∈ funderTargetsOf logs f))

/-- The actor's distinct platforms (analyze.ts lines 625-629). -/
def platformsOf (logs : List LogEntry) (a : String) : List String :=
  ((actorLogsOf logs a).map (fun l => l.platform)).dedupFirst

/-- `detectCrossAppLinking` (analyze.ts lines 624-637): the platform list
when there are at least two, otherwise the empty lookup default. -/
def crossAppPlatformsOf (logs : List LogEntry) (a : String) : List String :=
  if 2 ≤ (platformsOf logs a).length then platformsOf logs a else []

/-- The actor's `amount` values in log order (analyze.ts lines 915-921). -/
def amountsOf (logs : List LogEntry) (a : String) : List ℚ :=
  (actorLogsOf logs a).filterMap (fun l => l.amount)

/-- `detectFraudulentTransactions` (analyze.ts lines 914-932):
`min(σ / (μ + 1), 1)` for actors with at least two amounts, else `0`. -/
noncomputable def fraudTxScoreOf (logs : List LogEntry) (a : String) : ℝ :=
  let amounts := amountsOf logs a
  if amounts.length < 2 then 0
  else
    let avg : ℚ := amounts.sum / (amounts.length : ℚ)
    let variance : ℚ := ((amounts.map (fun x => (x - avg)^2)).sum) / (amounts.length : ℚ)
    min (Real.sqrt (variance : ℝ) / ((avg : ℝ) + 1)) 1

/-! ## analyze.ts: profile aggregation -/

/-- The distinct actors (the keys of `actorProfiles`, analyze.ts lines
138-147), in first-appearance order. -/
def distinctActorsOf (logs : List LogEntry) : List String :=
  (logs.map (fun l => l.actor)).dedupFirst

/-- The last truthy `bio` of the actor (analyze.ts line 140). -/
def lastBioOf (logs : List LogEntry) (a : String) : Option String :=
  ((actorLogsOf logs a).filterMap (fun l =>
    match l.bio with
    | some b => if b ≠ "" then some b else none
    | none => none)).getLast?

/-- The last present `links` of the actor, normalized (analyze.ts line 141;
an empty array is truthy in JS, so presence alone wins). -/
def lastLinksOf (logs : List LogEntry) (a : String) : Option (List String) :=
  (((actorLogsOf logs a).filterMap (fun l => l.links)).getLast?).map normalizeLinks

/-- The last defined `followerCount` of the actor (analyze.ts line 142). -/
def followerCountOf (logs : List LogEntry) (a : String) : Option ℚ :=
  ((actorLogsOf logs a).filterMap (fun l => l.followerCount)).getLast?

/-- The last defined `followingCount` of the actor (analyze.ts line 143). -/
def followingCountOf (logs : List LogEntry) (a : String) : Option ℚ :=
  ((actorLogsOf logs a).filterMap (fun l => l.followingCount)).getLast?

/-- The last truthy `actorCreatedAt` of the actor (analyze.ts line 144), as
its parse result. -/
def createdAtOf (logs : List LogEntry) (a : String) : Option (Option Int) :=
  ((actorLogsOf logs a).filterMap (fun l => l.actorCreatedAt)).getLast?

/-- `linksByActor` for a profiled actor (analyze.ts lines 149-154):
profile links merged with links extracted from the bio, normalized. -/
def linksByActorOf (logs : List LogEntry) (a : String) : List String :=
  let fromProfile := (lastLinksOf logs a).getD []
  let fromBio := match lastBioOf logs a with
    | some b => extractLinks b
    | none => []
  normalizeLinks (fromProfile ++ fromBio)

/-- The scorecard `links` (analyze.ts line 463): the `linksByActor` entry
for a profiled actor, the empty fallback for a node that never acts. -/
def linksOf (logs : List LogEntry) (a : String) : List String :=
  if a ∈ distinctActorsOf logs then linksByActorOf logs a else []

/-- `sharedLinksByActor` (profile.ts lines 91-107 with analyze.ts line 155):
the actor's links that at least one other profiled actor also carries. -/
def sharedLinksOf (logs : List LogEntry) (a : String) : List String :=
  if a ∈ distinctActorsOf logs then
    (normalizeLinks (linksByActorOf logs a)).filter (fun link =>
      decide (2 ≤ ((distinctActorsOf logs).filter (fun b =>
        decide (link ∈ normalizeLinks (linksByActorOf logs b)))).length))
  else []

/-- Lowercase and collapse whitespace runs to single spaces, trimmed
(analyze.ts line 160). -/
def normalizeBio (bio : String) : String :=
  String.intercalate " " ((bio.toLower.split (fun c => c.isWhitespace)).filter
    (fun w => w ≠ ""))

/-- `normalizedBioByActor` (analyze.ts lines 157-164): the normalized bio
when nonempty. -/
def normBioOf (logs : List LogEntry) (a : String) : Option String :=
  match lastBioOf logs a with
  | none => none
  | some b =>
    let nb := normalizeBio b
    if nb = "" then none else some nb

/-- `bioCount[bio]` (analyze.ts line 163): how many profiled actors share
the normalized bio. -/
def bioCountOf (logs : List LogEntry) (bio : String) : ℕ :=
  ((distinctActorsOf logs).filter (fun a => decide (normBioOf logs a = some bio))).length

/-! ## analyze.ts: scorer -/

/-- `coordinationScore` (analyze.ts line 452). -/
def coordinationScoreOf (logs : List LogEntry) (s : AnalysisSettings) (a : String) : ℚ :=
  if 0 < totalActionsOf logs a then
    min ((burstActionsOf logs s a : ℚ) / (totalActionsOf logs a : ℚ)) 1
  else 0

/-- `burstRate` (analyze.ts line 469), computed by the same expression as
`coordinationScore`. -/
def burstRateOf (logs : List LogEntry) (s : AnalysisSettings) (a : String) : ℚ :=
  if 0 < totalActionsOf logs a then
    min ((burstActionsOf logs s a : ℚ) / (totalActionsOf logs a : ℚ)) 1
  else 0

/-- `clusterIsolationScore` (analyze.ts line 454): `1 - connections /
clusterSize` for a clustered node. -/
def clusterIsolationScoreOf (logs : List LogEntry) (positiveActions : List String)
    (minClusterSize : ℕ) (a : String) : ℚ :=
  let cs := clusterSizeOf logs positiveActions minClusterSize a
  if 0 < cs then 1 - (connectionsOf logs positiveActions a : ℚ) / (cs : ℚ) else 0

/-- `lowDiversityScore` (analyze.ts line 460). -/
def lowDiversityScoreOf (logs : List LogEntry) (a : String) : ℚ :=
  if 0 < totalActionsOf logs a then
    1 - ((uniqueTargetsOf logs a).length : ℚ) / (totalActionsOf logs a : ℚ)
  else 0

/-- `ageDays` (analyze.ts lines 455-458). The account-creation instant must
be truthy and finite: a `createdMs` of exactly `0` (the epoch) is falsy in
JS and so yields no age. -/
def ageDaysOf (logs : List LogEntry) (a : String) : Option ℚ :=
  match createdAtOf logs a with
  | some (some c) =>
    if c ≠ 0 then
      some ((((firstSeenOf logs a).getD (datasetStartMs logs) - c : Int) : ℚ) / 86400000)
    else none
  | _ => none

/-- `newAccountScore` (analyze.ts line 459): `1` iff the actor's first
sighting lies within 7 days after account creation. -/
def newAccountScoreOf (logs : List LogEntry) (a : String) : ℚ :=
  match ageDaysOf logs a with
  | some age => if 0 ≤ age ∧ age < 7 then 1 else 0
  | none => 0

/-- `rapidActionScore` (analyze.ts lines 484-488): the guard clamps the
threshold to at least 1 but the ratio uses the raw threshold. -/
def rapidActionScoreOf (logs : List LogEntry) (th : ℚ) (a : String) : ℚ :=
  let maxApm := maxActionsPerMinuteOf logs a
  if max 1 th ≤ (maxApm : ℚ) then min (((maxApm : ℚ) - th) / th) 1 else 0

/-- `bioSimilarityScore` (analyze.ts line 471): `min((k - 1) / 5, 1)` where
`k` is the falsy-guarded bio-duplication count. -/
def bioSimilarityScoreOf (logs : List LogEntry) (a : String) : ℚ :=
  match normBioOf logs a with
  | none => 0
  | some b =>
    let k := bioCountOf logs b
    let k := if k = 0 then 1 else k
    min (((k : ℚ) - 1) / 5) 1

/-- `suspiciousLinks` (analyze.ts line 464). -/
def suspiciousLinksOf (logs : List LogEntry) (a : String) : List String :=
  (linksOf logs a).filter (fun link => isSuspiciousDomain link)

/-- `phishingLinks` (analyze.ts line 465). -/
def phishingLinksOf (logs : List LogEntry) (a : String) : List String :=
  (linksOf logs a).filter (fun link => isLikelyPhishingUrl link)

/-- `phishingLinkScore` (analyze.ts line 473). -/
def phishingLinkScoreOf (logs : List LogEntry) (a : String) : ℚ :=
  let n := (phishingLinksOf logs a).length
  if 0 < n then min ((n : ℚ) / 2) 1 else 0

/-- `profileAnomalyScore` (analyze.ts line 474). -/
def profileAnomalyScoreOf (logs : List LogEntry) (a : String) : ℚ :=
  updateProfileAnomalyScore (linksOf logs a) (followerCountOf logs a)
    (followingCountOf logs a)

/-- `reciprocalRate` (analyze.ts line 468). -/
def reciprocalRateOf (logs : List LogEntry) (positiveActions : List String)
    (a : String) : ℚ :=
  let outn := (positiveOutOf logs positiveActions a).length
  if 0 < outn then (mutualPositiveOf logs positiveActions a : ℚ) / (outn : ℚ) else 0

/-- `sharedWalletScore` (analyze.ts line 506). -/
def sharedWalletScoreOf (logs : List LogEntry) (a : String) : ℚ :=
  if 0 < (sharedWalletsOf logs a).length then 1 else 0

/-- `crossAppScore` (analyze.ts line 507). -/
def crossAppScoreOf (logs : List LogEntry) (a : String) : ℚ :=
  if 1 < (crossAppPlatformsOf logs a).length then 1/2 else 0

/-- `baseSybilScore` (analyze.ts lines 476-482). -/
def baseSybilScoreOf (logs : List LogEntry) (s : AnalysisSettings) (a : String) : ℚ :=
  3/10 * coordinationScoreOf logs s a +
  1/5 * min ((churnActionsOf logs s.churnActions a : ℚ) / 10) 1 +
  3/20 * clusterIsolationScoreOf logs s.positiveActions s.minClusterSize a +
  1/10 * newAccountScoreOf logs a +
  1/10 * lowDiversityScoreOf logs a +
  3/20 * profileAnomalyScoreOf logs a

/-- The session-metrics threshold wiring of analyze.ts line 441. -/
def sessionThresholdMsOf (s : AnalysisSettings) : ℚ :=
  max 1 s.sessionGapMinutes * 60 * 1000

/-- `sybilScore` (analyze.ts lines 510-522): additive boosters over the base
score, clamped from above by 1. -/
noncomputable def sybilScoreOf (logs : List LogEntry) (s : AnalysisSettings)
    (a : String) : ℝ :=
  min (((baseSybilScoreOf logs s a : ℚ) : ℝ) +
    ((1/10 * rapidActionScoreOf logs s.rapidActionsPerMinuteThreshold a : ℚ) : ℝ) +
    1/20 * (if s.entropyMinTotalActions ≤ totalActionsOf logs a then
      1 - targetEntropyOf logs a else 0) +
    ((1/20 * (velocityOf logs s a).velocityScore : ℚ) : ℝ) +
    ((3/100 * (ngramInfoOf logs a (ngramNOf s)).repeatScore : ℚ) : ℝ) +
    ((3/100 * circadianScoreOf logs a : ℚ) : ℝ) +
    ((1/20 * sharedWalletScoreOf logs a : ℚ) : ℝ) +
    ((1/20 * crossAppScoreOf logs a : ℚ) : ℝ) +
    ((1/20 * (sessionMetricsOf logs a (sessionThresholdMsOf s)).bottySessionScore : ℚ) : ℝ) +
    1/20 * fraudTxScoreOf logs a) 1

/-- The human-readable reason clauses (analyze.ts lines 524-546); each
constructor stands for one template string, carrying its numeric payloads. -/
inductive Reason where
  | thresholdCrossed (score : ℝ) (threshold : ℚ)
  | highCoordination (score : ℚ)
  | highChurn (count : ℕ)
  | clusterIsolation (score : ℚ) (clusterSize : ℕ)
  | lowTargetDiversity (score : ℚ)
  | suspiciousLinkDomains (count : ℕ)
  | phishingLikeUrls (count : ℕ)
  | sharedLinksWithOthers (count : ℕ)
  | repeatedBioText (score : ℚ)
  | handlePatternSimilarity (score : ℚ)
  | newAccount
  | highPageRank (score : ℚ)
  | bridgeLikeBetweenness (score : ℚ)
  | rapidActions (maxPerMinute : ℕ)
  | highVelocity (maxInWindow : ℕ) (windowSeconds : ℚ)
  | scriptLikeSequence (topNgram : List String)
  | unnaturalCircadian (activeHours : ℕ)
  | lowTargetEntropy (entropy : ℝ)
  | sharedFunders (count : ℕ)
  | crossAppActivity (platforms : List String)
  | highSessionCount (count : ℕ)
  | fraudulentTxPatterns (score : ℝ)

/-- `pagerank` joined into the scorecard (analyze.ts line 567). -/
def pagerankValOf (logs : List LogEntry) (positiveActions : List String)
    (a : String) : ℚ :=
  pageRankOf (nodesOf logs) (outNeighborsOf (edgesOf logs positiveActions))
    (inNeighborsOf (edgesOf logs positiveActions)) a

/-- `eigenCentrality` joined into the scorecard (analyze.ts line 568). -/
noncomputable def eigenValOf (logs : List LogEntry) (positiveActions : List String)
    (a : String) : ℝ :=
  eigenCentralityOf (nodesOf logs) (undirectedOf (edgesOf logs positiveActions)) a

/-- `betweenness` joined into the scorecard (analyze.ts line 569). -/
def betweennessValOf (logs : List LogEntry) (positiveActions : List String)
    (a : String) : ℚ :=
  betweennessOf (nodesOf logs) (undirectedOf (edgesOf logs positiveActions)) a

open Classical in
/-- The reason template (analyze.ts lines 524-546), parametric in the scalar
signals it reads, in push order. -/
noncomputable def reasonsList (threshold : ℚ) (sybil : ℝ) (coordination : ℚ)
    (churn : ℕ) (isolation : ℚ) (clusterSize : ℕ) (minClusterSize : ℕ)
    (lowDiversity : ℚ) (suspicious : List String) (phishing : List String)
    (shared : List String) (bioSim : ℚ) (handleScore : ℚ) (newAccount : ℚ)
    (pagerank : ℚ) (betweenness : ℚ) (maxApm : ℕ) (rapidThreshold : ℚ)
    (velocity : VelocityInfo) (velocityWindowSeconds : ℚ) (ngram : NgramInfo)
    (activeHours : ℕ) (circadian : ℚ) (entropyMinTotalActions : ℕ)
    (totalActions : ℕ) (entropy : ℝ) (sharedWallets : List String)
    (crossAppPlatforms : List String) (session : SessionInfo) (fraud : ℝ) :
    List Reason :=
  (if (threshold : ℝ) < sybil then [Reason.thresholdCrossed sybil threshold] else []) ++
  (if 1/2 ≤ coordination then [Reason.highCoordination coordination] else []) ++
  (if 5 ≤ churn then [Reason.highChurn churn] else []) ++
  (if 1/2 ≤ isolation ∧ minClusterSize ≤ clusterSize then
    [Reason.clusterIsolation isolation clusterSize] else []) ++
  (if 7/10 ≤ lowDiversity then [Reason.lowTargetDiversity lowDiversity] else []) ++
  (if 0 < suspicious.length then [Reason.suspiciousLinkDomains suspicious.length] else []) ++
  (if 0 < phishing.length then [Reason.phishingLikeUrls phishing.length] else []) ++
  (if 0 < shared.length then [Reason.sharedLinksWithOthers shared.length] else []) ++
  (if 2/5 ≤ bioSim then [Reason.repeatedBioText bioSim] else []) ++
  (if 2/5 ≤ handleScore then [Reason.handlePatternSimilarity handleScore] else []) ++
  (if newAccount = 1 then [Reason.newAccount] else []) ++
  (if 1/100 < pagerank then [Reason.highPageRank pagerank] else []) ++
  (if 1/20 < betweenness then [Reason.bridgeLikeBetweenness betweenness] else []) ++
  (if rapidThreshold ≤ (maxApm : ℚ) then [Reason.rapidActions maxApm] else []) ++
  (if 7/10 ≤ velocity.velocityScore then
    [Reason.highVelocity velocity.maxInWindow (max 1 velocityWindowSeconds)] else []) ++
  (if 7/10 ≤ ngram.repeatScore ∧ ngram.topNgram ≠ [] then
    [Reason.scriptLikeSequence ngram.topNgram] else []) ++
  (if 4/5 ≤ circadian then [Reason.unnaturalCircadian activeHours] else []) ++
  (if entropyMinTotalActions ≤ totalActions ∧ (7/10 : ℝ) ≤ 1 - entropy then
    [Reason.lowTargetEntropy entropy] else []) ++
  (if 0 < sharedWallets.length then [Reason.sharedFunders sharedWallets.length] else []) ++
  (if 0 < crossAppPlatforms.length then [Reason.crossAppActivity crossAppPlatforms] else []) ++
  (if 5 < session.sessionCount then [Reason.highSessionCount session.sessionCount] else []) ++
  (if (1/2 : ℝ) < fraud then [Reason.fraudulentTxPatterns fraud] else [])

/-- The reason list (analyze.ts lines 524-546): the template applied to the
actor's signals. -/
noncomputable def reasonsOf (logs : List LogEntry) (s : AnalysisSettings)
    (a : String) : List Reason :=
  reasonsList s.threshold (sybilScoreOf logs s a) (coordinationScoreOf logs s a)
    (churnActionsOf logs s.churnActions a)
    (clusterIsolationScoreOf logs s.positiveActions s.minClusterSize a)
    (clusterSizeOf logs s.positiveActions s.minClusterSize a) s.minClusterSize
    (lowDiversityScoreOf logs a) (suspiciousLinksOf logs a) (phishingLinksOf logs a)
    (sharedLinksOf logs a) (bioSimilarityScoreOf logs a)
    (handlePatternScoreOf (nodesOf logs) a) (newAccountScoreOf logs a)
    (pagerankValOf logs s.positiveActions a) (betweennessValOf logs s.positiveActions a)
    (maxActionsPerMinuteOf logs a) s.rapidActionsPerMinuteThreshold
    (velocityOf logs s a) s.velocityWindowSeconds (ngramInfoOf logs a (ngramNOf s))
    (activeHoursOf logs a) (circadianScoreOf logs a) s.entropyMinTotalActions
    (totalActionsOf logs a) (targetEntropyOf logs a) (sharedWalletsOf logs a)
    (crossAppPlatformsOf logs a) (sessionMetricsOf logs a (sessionThresholdMsOf s))
    (fraudTxScoreOf logs a)

/-- `ActorScorecard` of `analyze.ts` (lines 62-105). -/
structure ActorScorecard where
  actor : String
  sybilScore : ℝ
  churnScore : ℕ
  coordinationScore : ℚ
  noveltyScore : ℚ
  clusterIsolationScore : ℚ
  lowDiversityScore : ℚ
  profileAnomalyScore : ℚ
  links : List String
  suspiciousLinks : List String
  sharedLinks : List String
  linkDiversity : ℚ
  reciprocalRate : ℚ
  burstRate : ℚ
  newAccountScore : ℚ
  bioSimilarityScore : ℚ
  handlePatternScore : ℚ
  phishingLinkScore : ℚ
  pagerank : ℚ
  eigenCentrality : ℝ
  betweenness : ℚ
  maxActionsPerMinute : ℕ
  rapidActionScore : ℚ
  maxActionsPerVelocityWindow : ℕ
  maxActionsPerSecond : ℚ
  velocityScore : ℚ
  targetEntropy : ℝ
  lowEntropyScore : ℝ
  hourEntropy : ℝ
  activeHours : ℕ
  circadianScore : ℚ
  actionSequenceRepeatScore : ℚ
  topActionNgram : List String
  topActionNgramCount : ℕ
  avgSessionMinutes : ℚ
  avgSessionGapMinutes : ℚ
  maxSessionGapMinutes : ℚ
  sharedWallets : List String
  crossAppPlatforms : List String
  sessionCount : ℕ
  fraudTxScore : ℝ
  reasons : List Reason

/-- One scorecard (analyze.ts lines 451-592); scorecards are produced for
every node of the graph, actors and targets alike. -/
noncomputable def mkScorecard (logs : List LogEntry) (s : AnalysisSettings)
    (a : String) : ActorScorecard :=
  let velocity := velocityOf logs s a
  let ngram := ngramInfoOf logs a (ngramNOf s)
  let session := sessionMetricsOf logs a (sessionThresholdMsOf s)
  { actor := a
    sybilScore := sybilScoreOf logs s a
    churnScore := churnActionsOf logs s.churnActions a
    coordinationScore := coordinationScoreOf logs s a
    noveltyScore := newAccountScoreOf logs a
    clusterIsolationScore := clusterIsolationScoreOf logs s.positiveActions s.minClusterSize a
    lowDiversityScore := lowDiversityScoreOf logs a
    profileAnomalyScore := profileAnomalyScoreOf logs a
    links := linksOf logs a
    suspiciousLinks := suspiciousLinksOf logs a
    sharedLinks := sharedLinksOf logs a
    linkDiversity := linkDiversityScore (linksOf logs a)
    reciprocalRate := reciprocalRateOf logs s.positiveActions a
    burstRate := burstRateOf logs s a
    newAccountScore := newAccountScoreOf logs a
    bioSimilarityScore := bioSimilarityScoreOf logs a
    handlePatternScore := handlePatternScoreOf (nodesOf logs) a
    phishingLinkScore := phishingLinkScoreOf logs a
    pagerank := pagerankValOf logs s.positiveActions a
    eigenCentrality := eigenValOf logs s.positiveActions a
    betweenness := betweennessValOf logs s.positiveActions a
    maxActionsPerMinute := maxActionsPerMinuteOf logs a
    rapidActionScore := rapidActionScoreOf logs s.rapidActionsPerMinuteThreshold a
    maxActionsPerVelocityWindow := velocity.maxInWindow
    maxActionsPerSecond := velocity.maxPerSecond
    velocityScore := velocity.velocityScore
    targetEntropy := targetEntropyOf logs a
    lowEntropyScore := 1 - targetEntropyOf logs a
    hourEntropy := hourEntropyOf logs a
    activeHours := activeHoursOf logs a
    circadianScore := circadianScoreOf logs a
    actionSequenceRepeatScore := ngram.repeatScore
    topActionNgram := ngram.topNgram
    topActionNgramCount := ngram.topCount
    avgSessionMinutes := session.avgSessionMinutes
    avgSessionGapMinutes := session.avgGapMinutes
    maxSessionGapMinutes := session.maxGapMinutes
    sharedWallets := sharedWalletsOf logs a
    crossAppPlatforms := crossAppPlatformsOf logs a
    sessionCount := session.sessionCount
    fraudTxScore := fraudTxScoreOf logs a
    reasons := reasonsOf logs s a }

/-- `AnalysisResult` of `analyze.ts` (lines 107-112). -/
structure AnalysisResult where
  elements : List Element
  clusters : List DetailedCluster
  waves : List WaveResult
  scorecards : List ActorScorecard

/-- `elements` (analyze.ts lines 185-186): node elements then edge elements. -/
def elementsOf (logs : List LogEntry) (positiveActions : List String) : List Element :=
  (nodesOf logs).map (fun id => Element.node id id) ++
    (edgesOf logs positiveActions).map (fun e => Element.edge e.1 e.2)

/-- The numeric value of a decimal digit string (platform builtin model). -/
def digitsVal (cs : List Char) : ℕ :=
  cs.foldl (fun acc c => 10 * acc + (c.toNat - 48)) 0

/-- Whether a string is an ECMAScript array-index property key: the canonical
decimal form (no sign, no leading zero except `"0"` itself) of an integer
below `2^32 - 1` (platform builtin model). -/
def jsIsArrayIndex (s : String) : Bool :=
  let cs := s.toList
  decide (cs ≠ []) && cs.all (fun c => c.isDigit) &&
    (decide (cs = ['0']) || decide (cs.head? ≠ some '0')) &&
    decide (digitsVal cs < 4294967295)

/-- ECMAScript plain-object own-key enumeration order
(`OrdinaryOwnPropertyKeys`, platform builtin model): array-index keys first
in ascending numeric order, then the remaining string keys in insertion
order. `actorStats` is a plain object keyed by node id (analyze.ts line 325),
so `Object.values(actorStats)` (line 451) enumerates integer-like node ids
ahead of, and numerically sorted before, the other nodes. -/
def jsObjectKeyOrder (keys : List String) : List String :=
  (keys.filter (fun k => jsIsArrayIndex k)).insertionSort
      (fun a b => digitsVal a.toList ≤ digitsVal b.toList) ++
    keys.filter (fun k => !jsIsArrayIndex k)

/-- The result of `analyzeLogs` on the non-throwing path. The scorecard list
follows `Object.values(actorStats)` (analyze.ts line 451): plain-object key
enumeration order over the node ids, not node insertion order. -/
noncomputable def analyzeLogsCore (logs : List LogEntry) (s : AnalysisSettings) :
    AnalysisResult :=
  { elements := elementsOf logs s.positiveActions
    clusters := clustersOf logs s.positiveActions s.minClusterSize
    waves := wavesOf logs s
    scorecards := (jsObjectKeyOrder (nodesOf logs)).map (mkScorecard logs s) }

/-- The exception `analyzeLogs` can raise: the `RangeError` thrown by
`new Date(NaN).toISOString()` at analyze.ts line 272 when a log entry's
timestamp does not parse. -/
inductive AnalyzeError where
  | invalidTimeValue
  deriving Repr, DecidableEq

/-- `analyzeLogs` (analyze.ts lines 123-597). Empty input returns the empty
result (line 128). Otherwise the fixed-bin grouping at lines 269-278 runs
over every entry without a finiteness guard, and an unparseable timestamp
makes `new Date(bin).toISOString()` throw before anything is returned; all
later per-entry computations do carry guards, so on input whose timestamps
all parse the call completes with `analyzeLogsCore`. -/
noncomputable def analyzeLogs (logs : List LogEntry) (s : AnalysisSettings) :
    Except AnalyzeError AnalysisResult :=
  if logs = [] then
    .ok { elements := [], clusters := [], waves := [], scorecards := [] }
  else if logs.all (fun l => (parseTs l).isSome) then
    .ok (analyzeLogsCore logs s)
  else .error .invalidTimeValue

/-! ## Bounds of the scorecard fields -/

lemma coordinationScoreOf_nonneg (logs : List LogEntry) (s : AnalysisSettings)
    (a : String) : 0 ≤ coordinationScoreOf logs s a := by
  unfold coordinationScoreOf
  split
  · exact le_min (by positivity) one_pos.le
  · exact le_refl 0

lemma coordinationScoreOf_le_one (logs : List LogEntry) (s : AnalysisSettings)
    (a : String) : coordinationScoreOf logs s a ≤ 1 := by
  unfold coordinationScoreOf
  split
  · exact min_le_right _ _
  · exact zero_le_one

lemma burstRateOf_eq (logs : List LogEntry) (s : AnalysisSettings) (a : String) :
    burstRateOf logs s a = coordinationScoreOf logs s a := rfl

lemma clusterIsolationScoreOf_le_one (logs : List LogEntry)
    (positiveActions : List String) (minClusterSize : ℕ) (a : String) :
    clusterIsolationScoreOf logs positiveActions minClusterSize a ≤ 1 := by
  unfold clusterIsolationScoreOf
  dsimp only
  split
  · have : (0:ℚ) ≤ (connectionsOf logs positiveActions a : ℚ) /
        (clusterSizeOf logs positiveActions minClusterSize a : ℚ) := by positivity
    linarith
  · exact zero_le_one

lemma uniqueTargetsOf_length_le (logs : List LogEntry) (a : String) :
    (uniqueTargetsOf logs a).length ≤ totalActionsOf logs a := by
  unfold uniqueTargetsOf totalActionsOf
  calc (((actorLogsOf logs a).map (fun l => l.target)).dedupFirst).length
      ≤ ((actorLogsOf logs a).map (fun l => l.target)).length :=
        dedupFirst_length_le _
    _ = (actorLogsOf logs a).length := List.length_map _ _

lemma lowDiversityScoreOf_nonneg (logs : List LogEntry) (a : String) :
    0 ≤ lowDiversityScoreOf logs a := by
  unfold lowDiversityScoreOf
  split
  · rename_i h
    have hle := uniqueTargetsOf_length_le logs a
    have hpos : (0:ℚ) < (totalActionsOf logs a : ℚ) := by exact_mod_cast h
    have : ((uniqueTargetsOf logs a).length : ℚ) / (totalActionsOf logs a : ℚ) ≤ 1 := by
      rw [div_le_one hpos]
      exact_mod_cast hle
    linarith
  · exact le_refl 0

lemma lowDiversityScoreOf_le_one (logs : List LogEntry) (a : String) :
    lowDiversityScoreOf logs a ≤ 1 := by
  unfold lowDiversityScoreOf
  split
  · have : (0:ℚ) ≤ ((uniqueTargetsOf logs a).length : ℚ) / (totalActionsOf logs a : ℚ) := by
      positivity
    linarith
  · exact zero_le_one

lemma newAccountScoreOf_mem (logs : List LogEntry) (a : String) :
    newAccountScoreOf logs a = 0 ∨ newAccountScoreOf logs a = 1 := by
  unfold newAccountScoreOf
  rcases ageDaysOf logs a with _ | age
  · exact Or.inl rfl
  · dsimp only
    split
    · exact Or.inr rfl
    · exact Or.inl rfl

lemma newAccountScoreOf_nonneg (logs : List LogEntry) (a : String) :
    0 ≤ newAccountScoreOf logs a := by
  rcases newAccountScoreOf_mem logs a with h | h <;> rw [h] <;> norm_num

lemma newAccountScoreOf_le_one (logs : List LogEntry) (a : String) :
    newAccountScoreOf logs a ≤ 1 := by
  rcases newAccountScoreOf_mem logs a with h | h <;> rw [h] <;> norm_num

lemma updateProfileAnomalyScore_nonneg (links : List String)
    (fr fg : Option ℚ) : 0 ≤ updateProfileAnomalyScore links fr fg := by
  unfold updateProfileAnomalyScore
  dsimp only
  refine le_min (add_nonneg (add_nonneg ?_ ?_) ?_) zero_le_one
  · rcases fr with _ | x
    · rcases fg with _ | y <;> norm_num
    · rcases fg with _ | y
      · norm_num
      · dsimp only
        split <;> norm_num
  · split <;> norm_num
  · split <;> norm_num

lemma updateProfileAnomalyScore_le_one (links : List String)
    (fr fg : Option ℚ) : updateProfileAnomalyScore links fr fg ≤ 1 :=
  min_le_right _ _

lemma rapidActionScoreOf_nonneg (logs : List LogEntry) (th : ℚ) (a : String)
    (hth : 0 < th) : 0 ≤ rapidActionScoreOf logs th a := by
  unfold rapidActionScoreOf
  dsimp only
  split
  · rename_i h
    refine le_min (div_nonneg ?_ hth.le) zero_le_one
    have : th ≤ (maxActionsPerMinuteOf logs a : ℚ) := le_trans (le_max_right 1 th) h
    linarith
  · exact le_refl 0

lemma rapidActionScoreOf_le_one (logs : List LogEntry) (th : ℚ) (a : String) :
    rapidActionScoreOf logs th a ≤ 1 := by
  unfold rapidActionScoreOf
  dsimp only
  split
  · exact min_le_right _ _
  · exact zero_le_one

lemma velocityScore_nonneg (logs : List LogEntry) (s : AnalysisSettings) (a : String) :
    0 ≤ (velocityOf logs s a).velocityScore := by
  unfold velocityOf
  dsimp only
  split
  · rename_i h
    have hpos : (0:ℚ) < ((max 1 s.velocityMaxActionsInWindow : ℕ) : ℚ) := by
      have : 1 ≤ max 1 s.velocityMaxActionsInWindow := le_max_left _ _
      exact_mod_cast lt_of_lt_of_le one_pos this
    refine le_min (div_nonneg ?_ hpos.le) zero_le_one
    have : ((max 1 s.velocityMaxActionsInWindow : ℕ) : ℚ) ≤
        (velMaxInWindowOf (sortedTimesOf logs a) (max 1 s.velocityWindowSeconds * 1000) : ℚ) := by
      exact_mod_cast h
    linarith
  · exact le_refl 0

lemma velocityScore_le_one (logs : List LogEntry) (s : AnalysisSettings) (a : String) :
    (velocityOf logs s a).velocityScore ≤ 1 := by
  unfold velocityOf
  dsimp only
  split
  · exact min_le_right _ _
  · exact zero_le_one

lemma targetEntropyOf_nonneg (logs : List LogEntry) (a : String) :
    0 ≤ targetEntropyOf logs a := by
  unfold targetEntropyOf
  dsimp only
  split
  · exact le_refl 0
  · exact le_max_left 0 _

lemma targetEntropyOf_le_one (logs : List LogEntry) (a : String) :
    targetEntropyOf logs a ≤ 1 := by
  unfold targetEntropyOf
  dsimp only
  split
  · exact zero_le_one
  · exact max_le zero_le_one (min_le_right _ _)

lemma hourEntropyOf_nonneg (logs : List LogEntry) (a : String) :
    0 ≤ hourEntropyOf logs a := by
  unfold hourEntropyOf
  exact le_max_left 0 _

lemma hourEntropyOf_le_one (logs : List LogEntry) (a : String) :
    hourEntropyOf logs a ≤ 1 := by
  unfold hourEntropyOf
  exact max_le zero_le_one (min_le_right _ _)

lemma circadianScoreOf_nonneg (logs : List LogEntry) (a : String) :
    0 ≤ circadianScoreOf logs a := by
  unfold circadianScoreOf
  dsimp only
  refine le_trans ?_ (le_max_left _ _)
  split <;> norm_num

lemma circadianScoreOf_le_one (logs : List LogEntry) (a : String) :
    circadianScoreOf logs a ≤ 1 := by
  unfold circadianScoreOf
  dsimp only
  refine max_le ?_ ?_ <;> split <;> norm_num

lemma ngramRepeatScore_nonneg (logs : List LogEntry) (a : String) (n : ℕ) :
    0 ≤ (ngramInfoOf logs a n).repeatScore := by
  unfold ngramInfoOf
  dsimp only
  split
  · exact le_refl 0
  · exact le_min (by positivity) zero_le_one

lemma ngramRepeatScore_le_one (logs : List LogEntry) (a : String) (n : ℕ) :
    (ngramInfoOf logs a n).repeatScore ≤ 1 := by
  unfold ngramInfoOf
  dsimp only
  split
  · exact zero_le_one
  · exact min_le_right _ _

lemma bioSimilarityScoreOf_nonneg (logs : List LogEntry) (a : String) :
    0 ≤ bioSimilarityScoreOf logs a := by
  unfold bioSimilarityScoreOf
  rcases normBioOf logs a with _ | b
  · exact le_refl 0
  · dsimp only
    refine le_min ?_ zero_le_one
    split
    · norm_num
    · rename_i h
      have : 1 ≤ bioCountOf logs b := Nat.one_le_iff_ne_zero.mpr h
      have : (1:ℚ) ≤ (bioCountOf logs b : ℚ) := by exact_mod_cast this
      have : (0:ℚ) ≤ (bioCountOf logs b : ℚ) - 1 := by linarith
      positivity

lemma bioSimilarityScoreOf_le_one (logs : List LogEntry) (a : String) :
    bioSimilarityScoreOf logs a ≤ 1 := by
  unfold bioSimilarityScoreOf
  rcases normBioOf logs a with _ | b
  · exact zero_le_one
  · exact min_le_right _ _

lemma handlePatternScoreOf_nonneg (handles : List String) (h : String) :
    0 ≤ handlePatternScoreOf handles h := by
  unfold handlePatternScoreOf
  refine le_min ?_ zero_le_one
  have hstem : (1:ℚ) ≤ ((if handleStem h = "" then 1 else
      if stemCountOf handles (handleStem h) = 0 then 1 else
        stemCountOf handles (handleStem h) : ℕ) : ℚ) := by
    have : 1 ≤ (if handleStem h = "" then 1 else
        if stemCountOf handles (handleStem h) = 0 then 1 else
          stemCountOf handles (handleStem h)) := by
      split
      · exact le_refl 1
      · split
        · exact le_refl 1
        · rename_i hne; exact Nat.one_le_iff_ne_zero.mpr hne
    exact_mod_cast this
  have hshape : (1:ℚ) ≤ ((if handleShape h = "" then 1 else
      if shapeCountOf handles (handleShape h) = 0 then 1 else
        shapeCountOf handles (handleShape h) : ℕ) : ℚ) := by
    have : 1 ≤ (if handleShape h = "" then 1 else
        if shapeCountOf handles (handleShape h) = 0 then 1 else
          shapeCountOf handles (handleShape h)) := by
      split
      · exact le_refl 1
      · split
        · exact le_refl 1
        · rename_i hne; exact Nat.one_le_iff_ne_zero.mpr hne
    exact_mod_cast this
  have h1 : (0:ℚ) ≤ min ((((if handleStem h = "" then 1 else
      if stemCountOf handles (handleStem h) = 0 then 1 else
        stemCountOf handles (handleStem h) : ℕ) : ℚ) - 1) / 10) 1 := by
    refine le_min ?_ zero_le_one
    have : (0:ℚ) ≤ (((if handleStem h = "" then 1 else
        if stemCountOf handles (handleStem h) = 0 then 1 else
          stemCountOf handles (handleStem h) : ℕ) : ℚ) - 1) := by linarith
    positivity
  have h2 : (0:ℚ) ≤ min ((((if handleShape h = "" then 1 else
      if shapeCountOf handles (handleShape h) = 0 then 1 else
        shapeCountOf handles (handleShape h) : ℕ) : ℚ) - 1) / 20) 1 := by
    refine le_min ?_ zero_le_one
    have : (0:ℚ) ≤ (((if handleShape h = "" then 1 else
        if shapeCountOf handles (handleShape h) = 0 then 1 else
          shapeCountOf handles (handleShape h) : ℕ) : ℚ) - 1) := by linarith
    positivity
  have h3 : (0:ℚ) ≤ (if hasNumericSuffix h then (2/5:ℚ) else 0) := by
    split <;> norm_num
  linarith

lemma handlePatternScoreOf_le_one (handles : List String) (h : String) :
    handlePatternScoreOf handles h ≤ 1 := by
  unfold handlePatternScoreOf
  exact min_le_right _ _

lemma phishingLinkScoreOf_nonneg (logs : List LogEntry) (a : String) :
    0 ≤ phishingLinkScoreOf logs a := by
  unfold phishingLinkScoreOf
  dsimp only
  split
  · exact le_min (by positivity) zero_le_one
  · exact le_refl 0

lemma phishingLinkScoreOf_le_one (logs : List LogEntry) (a : String) :
    phishingLinkScoreOf logs a ≤ 1 := by
  unfold phishingLinkScoreOf
  dsimp only
  split
  · exact min_le_right _ _
  · exact zero_le_one

lemma reciprocalRateOf_nonneg (logs : List LogEntry) (positiveActions : List String)
    (a : String) : 0 ≤ reciprocalRateOf logs positiveActions a := by
  unfold reciprocalRateOf
  dsimp only
  split
  · positivity
  · exact le_refl 0

lemma mutualPositiveOf_le (logs : List LogEntry) (positiveActions : List String)
    (a : String) :
    mutualPositiveOf logs positiveActions a ≤ (positiveOutOf logs positiveActions a).length :=
  List.length_filter_le _ _

lemma reciprocalRateOf_le_one (logs : List LogEntry) (positiveActions : List String)
    (a : String) : reciprocalRateOf logs positiveActions a ≤ 1 := by
  unfold reciprocalRateOf
  dsimp only
  split
  · rename_i h
    have hpos : (0:ℚ) < ((positiveOutOf logs positiveActions a).length : ℚ) := by
      exact_mod_cast h
    rw [div_le_one hpos]
    exact_mod_cast mutualPositiveOf_le logs positiveActions a
  · exact zero_le_one

lemma linkDiversityScore_nonneg (links : List String) :
    0 ≤ linkDiversityScore links := by
  unfold linkDiversityScore
  split
  · exact zero_le_one
  · positivity

lemma linkDiversityScore_le_one (links : List String) :
    linkDiversityScore links ≤ 1 := by
  unfold linkDiversityScore
  split
  · exact le_refl 1
  · rename_i h
    have hpos : (0:ℚ) < (links.length : ℚ) := by
      have : 0 < links.length := Nat.pos_of_ne_zero h
      exact_mod_cast this
    rw [div_le_one hpos]
    have hle : ((links.map (fun link =>
        match parseUrl link with
        | some parsed => parsed.hostname
        | none => link)).dedupFirst).length ≤ links.length := by
      calc ((links.map _).dedupFirst).length ≤ (links.map (fun link =>
            match parseUrl link with
            | some parsed => parsed.hostname
            | none => link)).length := dedupFirst_length_le _
        _ = links.length := List.length_map _ _
    exact_mod_cast hle

lemma bottySessionScore_nonneg (logs : List LogEntry) (a : String) (th : ℚ) :
    0 ≤ (sessionMetricsOf logs a th).bottySessionScore := by
  unfold sessionMetricsOf
  dsimp only
  split
  · exact le_refl 0
  · dsimp only
    refine le_min (mul_nonneg ?_ (le_min (by positivity) zero_le_one)) zero_le_one
    split
    · norm_num
    · split <;> norm_num

lemma bottySessionScore_le_one (logs : List LogEntry) (a : String) (th : ℚ) :
    (sessionMetricsOf logs a th).bottySessionScore ≤ 1 := by
  unfold sessionMetricsOf
  dsimp only
  split
  · exact zero_le_one
  · exact min_le_right _ _

lemma sharedWalletScoreOf_mem (logs : List LogEntry) (a : String) :
    sharedWalletScoreOf logs a = 0 ∨ sharedWalletScoreOf logs a = 1 := by
  unfold sharedWalletScoreOf
  split
  · exact Or.inr rfl
  · exact Or.inl rfl

lemma crossAppScoreOf_mem (logs : List LogEntry) (a : String) :
    crossAppScoreOf logs a = 0 ∨ crossAppScoreOf logs a = 1/2 := by
  unfold crossAppScoreOf
  split
  · exact Or.inr rfl
  · exact Or.inl rfl

lemma fraudTxScoreOf_le_one (logs : List LogEntry) (a : String) :
    fraudTxScoreOf logs a ≤ 1 := by
  unfold fraudTxScoreOf
  dsimp only
  split
  · exact zero_le_one
  · exact min_le_right _ _

lemma fraudTxScoreOf_nonneg (logs : List LogEntry) (a : String)
    (hamt : ∀ q ∈ amountsOf logs a, 0 ≤ q) : 0 ≤ fraudTxScoreOf logs a := by
  unfold fraudTxScoreOf
  dsimp only
  split
  · exact le_refl 0
  · rename_i h
    refine le_min ?_ zero_le_one
    have hsum : 0 ≤ (amountsOf logs a).sum := List.sum_nonneg hamt
    have havg : (0:ℚ) ≤ (amountsOf logs a).sum / ((amountsOf logs a).length : ℚ) := by
      positivity
    have hden : (0:ℝ) ≤ (((amountsOf logs a).sum / ((amountsOf logs a).length : ℚ) : ℚ) : ℝ) + 1 := by
      have : (0:ℝ) ≤ (((amountsOf logs a).sum / ((amountsOf logs a).length : ℚ) : ℚ) : ℝ) := by
        exact_mod_cast havg
      linarith
    exact div_nonneg (Real.sqrt_nonneg _) hden

lemma profileAnomalyScoreOf_nonneg (logs : List LogEntry) (a : String) :
    0 ≤ profileAnomalyScoreOf logs a :=
  updateProfileAnomalyScore_nonneg _ _ _

lemma profileAnomalyScoreOf_le_one (logs : List LogEntry) (a : String) :
    profileAnomalyScoreOf logs a ≤ 1 :=
  updateProfileAnomalyScore_le_one _ _ _

lemma clusterIsolationScoreOf_nonneg (logs : List LogEntry)
    (positiveActions : List String) (minClusterSize : ℕ) (a : String)
    (h : clusterSizeOf logs positiveActions minClusterSize a = 0 ∨
      connectionsOf logs positiveActions a ≤
        clusterSizeOf logs positiveActions minClusterSize a) :
    0 ≤ clusterIsolationScoreOf logs positiveActions minClusterSize a := by
  unfold clusterIsolationScoreOf
  dsimp only
  split
  · rename_i hpos
    rcases h with h | h
    · omega
    · have hpos' : (0:ℚ) < (clusterSizeOf logs positiveActions minClusterSize a : ℚ) := by
        exact_mod_cast hpos
      have : (connectionsOf logs positiveActions a : ℚ) /
          (clusterSizeOf logs positiveActions minClusterSize a : ℚ) ≤ 1 := by
        rw [div_le_one hpos']
        exact_mod_cast h
      linarith
  · exact le_refl 0

lemma baseSybilScoreOf_nonneg (logs : List LogEntry) (s : AnalysisSettings) (a : String)
    (hclu : clusterSizeOf logs s.positiveActions s.minClusterSize a = 0 ∨
      connectionsOf logs s.positiveActions a ≤
        clusterSizeOf logs s.positiveActions s.minClusterSize a) :
    0 ≤ baseSybilScoreOf logs s a := by
  unfold baseSybilScoreOf
  have h1 := coordinationScoreOf_nonneg logs s a
  have h2 : (0:ℚ) ≤ min ((churnActionsOf logs s.churnActions a : ℚ) / 10) 1 :=
    le_min (by positivity) zero_le_one
  have h3 := clusterIsolationScoreOf_nonneg logs s.positiveActions s.minClusterSize a hclu
  have h4 := newAccountScoreOf_nonneg logs a
  have h5 := lowDiversityScoreOf_nonneg logs a
  have h6 := profileAnomalyScoreOf_nonneg logs a
  linarith

lemma sybilScoreOf_le_one (logs : List LogEntry) (s : AnalysisSettings) (a : String) :
    sybilScoreOf logs s a ≤ 1 := by
  unfold sybilScoreOf
  exact min_le_right _ _

lemma sybilScoreOf_nonneg (logs : List LogEntry) (s : AnalysisSettings) (a : String)
    (hth : 0 < s.rapidActionsPerMinuteThreshold)
    (hamt : ∀ q ∈ amountsOf logs a, 0 ≤ q)
    (hclu : clusterSizeOf logs s.positiveActions s.minClusterSize a = 0 ∨
      connectionsOf logs s.positiveActions a ≤
        clusterSizeOf logs s.positiveActions s.minClusterSize a) :
    0 ≤ sybilScoreOf logs s a := by
  unfold sybilScoreOf
  refine le_min ?_ zero_le_one
  have hbase : (0:ℝ) ≤ ((baseSybilScoreOf logs s a : ℚ) : ℝ) := by
    exact_mod_cast baseSybilScoreOf_nonneg logs s a hclu
  have hrapid : (0:ℝ) ≤
      ((1/10 * rapidActionScoreOf logs s.rapidActionsPerMinuteThreshold a : ℚ) : ℝ) := by
    have := rapidActionScoreOf_nonneg logs s.rapidActionsPerMinuteThreshold a hth
    have : (0:ℚ) ≤ 1/10 * rapidActionScoreOf logs s.rapidActionsPerMinuteThreshold a := by
      linarith
    exact_mod_cast this
  have hent : (0:ℝ) ≤ (1/20 : ℝ) * (if s.entropyMinTotalActions ≤ totalActionsOf logs a
      then 1 - targetEntropyOf logs a else 0) := by
    have h := targetEntropyOf_le_one logs a
    refine mul_nonneg (by norm_num) ?_
    split
    · linarith
    · exact le_refl 0
  have hvel : (0:ℝ) ≤ ((1/20 * (velocityOf logs s a).velocityScore : ℚ) : ℝ) := by
    have := velocityScore_nonneg logs s a
    have : (0:ℚ) ≤ 1/20 * (velocityOf logs s a).velocityScore := by linarith
    exact_mod_cast this
  have hngram : (0:ℝ) ≤ ((3/100 * (ngramInfoOf logs a (ngramNOf s)).repeatScore : ℚ) : ℝ) := by
    have := ngramRepeatScore_nonneg logs a (ngramNOf s)
    have : (0:ℚ) ≤ 3/100 * (ngramInfoOf logs a (ngramNOf s)).repeatScore := by linarith
    exact_mod_cast this
  have hcirc : (0:ℝ) ≤ ((3/100 * circadianScoreOf logs a : ℚ) : ℝ) := by
    have := circadianScoreOf_nonneg logs a
    have : (0:ℚ) ≤ 3/100 * circadianScoreOf logs a := by linarith
    exact_mod_cast this
  have hwallet : (0:ℝ) ≤ ((1/20 * sharedWalletScoreOf logs a : ℚ) : ℝ) := by
    have : (0:ℚ) ≤ 1/20 * sharedWalletScoreOf logs a := by
      rcases sharedWalletScoreOf_mem logs a with h | h <;> rw [h] <;> norm_num
    exact_mod_cast this
  have hcross : (0:ℝ) ≤ ((1/20 * crossAppScoreOf logs a : ℚ) : ℝ) := by
    have : (0:ℚ) ≤ 1/20 * crossAppScoreOf logs a := by
      rcases crossAppScoreOf_mem logs a with h | h <;> rw [h] <;> norm_num
    exact_mod_cast this
  have hsess : (0:ℝ) ≤
      ((1/20 * (sessionMetricsOf logs a (sessionThresholdMsOf s)).bottySessionScore : ℚ) : ℝ) := by
    have := bottySessionScore_nonneg logs a (sessionThresholdMsOf s)
    have : (0:ℚ) ≤
        1/20 * (sessionMetricsOf logs a (sessionThresholdMsOf s)).bottySessionScore := by
      linarith
    exact_mod_cast this
  have hfraud : (0:ℝ) ≤ (1/20 : ℝ) * fraudTxScoreOf logs a :=
    mul_nonneg (by norm_num) (fraudTxScoreOf_nonneg logs a hamt)
  linarith

/-! ## Burst retention: the z-score bound -/

lemma zAccept_le (c : ℕ) (e : ℚ) (h : zAccept c e = true) :
    (5/2 : ℝ) ≤ zScoreReal c e := by
  unfold zAccept at h
  have h' := of_decide_eq_true h
  obtain ⟨h1, h2⟩ := h'
  unfold zScoreReal
  set m : ℚ := max (1/1000000) e with hm
  have hmpos : (0:ℚ) < m := lt_of_lt_of_le (by norm_num) (le_max_left _ _)
  have hmposR : (0:ℝ) < (m : ℝ) := by exact_mod_cast hmpos
  have hsqrtpos : 0 < Real.sqrt (m : ℝ) := Real.sqrt_pos.mpr hmposR
  rw [le_div_iff₀ hsqrtpos]
  set aR : ℝ := (((c : ℚ) - e : ℚ) : ℝ) with ha
  have haR : (0:ℝ) < aR := by
    rw [ha]
    exact_mod_cast sub_pos.mpr h1
  have hsq : (m : ℝ) ≤ ((2/5) * aR)^2 := by
    have h2R : 25 * (m : ℝ) ≤ 4 * aR^2 := by
      rw [ha]
      exact_mod_cast h2
    nlinarith
  have key : Real.sqrt (m : ℝ) ≤ (2/5) * aR := by
    calc Real.sqrt (m : ℝ) ≤ Real.sqrt (((2/5) * aR)^2) := Real.sqrt_le_sqrt hsq
      _ = (2/5) * aR := Real.sqrt_sq (by positivity)
  linarith

lemma mem_rawBurstsOf {logs : List LogEntry} {windowMs : ℚ} {minCount minActors : ℕ}
    {rb : RawBurst} (h : rb ∈ rawBurstsOf logs windowMs minCount minActors) :
    minCount ≤ rb.count ∧ minActors ≤ rb.actors.length ∧
      zAccept rb.count rb.expected = true := by
  unfold rawBurstsOf at h
  rw [List.mem_filterMap] at h
  obtain ⟨key, _, hmk⟩ := h
  dsimp only at hmk
  split at hmk
  · exact absurd hmk (by simp)
  · split at hmk
    · exact absurd hmk (by simp)
    · rename_i hnot
      push_neg at hnot
      split at hmk
      · rename_i hz
        rw [Option.some.injEq] at hmk
        subst hmk
        refine ⟨?_, ?_, ?_⟩ <;> dsimp only
        · omega
        · omega
        · exact hz
      · exact absurd hmk (by simp)

lemma mem_settingsBurstsOf {logs : List LogEntry} {s : AnalysisSettings} {rb : RawBurst}
    (h : rb ∈ settingsBurstsOf logs s) :
    rb ∈ rawBurstsOf logs (burstWindowMsOf s.burstWindowSeconds)
      (max 1 s.burstMinCount) (max 1 s.burstMinActors) := by
  unfold settingsBurstsOf trimmedBurstsOf at h
  exact List.mem_mergeSort.mp ((List.take_sublist 250 _).subset h)

lemma settingsBurstsOf_length_le (logs : List LogEntry) (s : AnalysisSettings) :
    (settingsBurstsOf logs s).length ≤ 250 := by
  unfold settingsBurstsOf trimmedBurstsOf
  rw [List.length_take]
  exact min_le_left _ _

lemma binWavesOf_method {logs : List LogEntry} {s : AnalysisSettings} {w : WaveResult}
    (h : w ∈ binWavesOf logs s) : w.method = .bin := by
  unfold binWavesOf at h
  rw [List.mem_filterMap] at h
  obtain ⟨key, _, hmk⟩ := h
  dsimp only at hmk
  split at hmk
  · rw [Option.some.injEq] at hmk
    subst hmk
    rfl
  · exact absurd hmk (by simp)

lemma mem_windowWavesOf {logs : List LogEntry} {s : AnalysisSettings} {w : WaveResult}
    (h : w ∈ windowWavesOf logs s) :
    ∃ rb ∈ settingsBurstsOf logs s,
      w = RawBurst.toWave (burstWindowMsOf s.burstWindowSeconds) rb := by
  unfold windowWavesOf at h
  rw [List.mem_map] at h
  obtain ⟨rb, hrb, hw⟩ := h
  exact ⟨rb, hrb, hw.symm⟩

/-! ## Dispatch of `analyzeLogs` and projection helpers -/

lemma analyzeLogs_ok_cases {logs : List LogEntry} {s : AnalysisSettings}
    {r : AnalysisResult} (h : analyzeLogs logs s = .ok r) :
    (logs = [] ∧ r = { elements := [], clusters := [], waves := [], scorecards := [] }) ∨
      r = analyzeLogsCore logs s := by
  unfold analyzeLogs at h
  split at h
  · rw [Except.ok.injEq] at h
    exact Or.inl ⟨by assumption, h.symm⟩
  · split at h
    · rw [Except.ok.injEq] at h
      exact Or.inr h.symm
    · cases h

lemma analyzeLogsCore_scorecards (logs : List LogEntry) (s : AnalysisSettings) :
    (analyzeLogsCore logs s).scorecards =
      (jsObjectKeyOrder (nodesOf logs)).map (mkScorecard logs s) := rfl

lemma jsObjectKeyOrder_perm (keys : List String) :
    List.Perm (jsObjectKeyOrder keys) keys := by
  unfold jsObjectKeyOrder
  refine List.Perm.trans (List.Perm.append ?_ (List.Perm.refl _))
    (List.filter_append_perm _ _)
  exact List.perm_insertionSort _ _

lemma analyzeLogsCore_waves (logs : List LogEntry) (s : AnalysisSettings) :
    (analyzeLogsCore logs s).waves = wavesOf logs s := rfl

lemma analyzeLogsCore_clusters (logs : List LogEntry) (s : AnalysisSettings) :
    (analyzeLogsCore logs s).clusters = clustersOf logs s.positiveActions s.minClusterSize := rfl

lemma analyzeLogsCore_elements (logs : List LogEntry) (s : AnalysisSettings) :
    (analyzeLogsCore logs s).elements = elementsOf logs s.positiveActions := rfl

/-! ## Concrete inputs for witnesses and counterexamples -/

/-- A minimal well-formed log: one event with a parseable timestamp. -/
def wLogs : List LogEntry :=
  [{ timestamp := some 0, actor := "a", target := "b", action := "x", platform := "p" }]

/-- Ordinary settings (with a negative flagging threshold, so that the lone
actor of `wLogs` is flagged). -/
def wSettings : AnalysisSettings :=
  { threshold := -1, minClusterSize := 2, timeBinMinutes := 5, waveMinCount := 3,
    waveMinActors := 2, positiveActions := ["f"], churnActions := [],
    rapidActionsPerMinuteThreshold := 5, entropyMinTotalActions := 20,
    burstWindowSeconds := 120, burstMinCount := 5, burstMinActors := 3,
    velocityWindowSeconds := 10, velocityMaxActionsInWindow := 5,
    sessionGapMinutes := 30, actionNgramSize := 3 }

/-- One positive-action event `a → b`. -/
def cLog1 : LogEntry :=
  { timestamp := some 0, actor := "a", target := "b", action := "f", platform := "p" }

/-- Three parallel positive edges between the same two nodes: a multigraph on
which multi-edge degree (3) exceeds both the node-pair bound (1) and the
cluster size (2). -/
def cLogs : List LogEntry := [cLog1, cLog1, cLog1]

/-- A log whose single event has an unparseable timestamp. -/
def badLogs : List LogEntry :=
  [{ timestamp := none, actor := "a", target := "b", action := "f", platform := "p" }]

/-- A log with integer-like node ids, inserted in descending numeric order:
plain-object key enumeration re-sorts them ascending. -/
def nLogs : List LogEntry :=
  [{ timestamp := some 0, actor := "5", target := "3", action := "x", platform := "p" }]

/-! ## C1 -/

/-- C1: the claim says `analyzeLogs` never throws and that events with
malformed timestamps are merely excluded from the temporal detectors. The
code contradicts it: the fixed-bin grouping (analyze.ts lines 269-272) calls
`new Date(bin).toISOString()` where `bin` is `NaN` for an unparseable
timestamp, which throws a `RangeError` — the one per-event loop in the file
without a `Number.isFinite` guard, against the spec's explicit statement and
the pattern of every other detector. This theorem evaluates the embedded
engine at the failing input: one event whose timestamp does not parse makes
the whole call fail, producing no result at all. -/
theorem C1_malformed_timestamp_throws :
    analyzeLogs badLogs wSettings = .error .invalidTimeValue := rfl

/-! ## C10 -/

/-- C10: every scorecard has `burstRate` equal to `coordinationScore`: both
are computed by the same expression
`totalActions > 0 ? min(burstActions / totalActions, 1) : 0`
(analyze.ts lines 452 and 469). -/
theorem C10_burstRate_eq_coordination (logs : List LogEntry) (s : AnalysisSettings)
    (r : AnalysisResult) (h : analyzeLogs logs s = .ok r) :
    ∀ sc ∈ r.scorecards, sc.burstRate = sc.coordinationScore := by
  intro sc hsc
  rcases analyzeLogs_ok_cases h with ⟨_, rfl⟩ | rfl
  · simp at hsc
  · rw [analyzeLogsCore_scorecards, List.mem_map] at hsc
    obtain ⟨a, _, rfl⟩ := hsc
    exact burstRateOf_eq logs s a

/-- Witness for C10 at a concrete input: the scorecard of actor `a`. -/
theorem C10_burstRate_eq_coordination_witness :
    (mkScorecard wLogs wSettings "a").burstRate =
      (mkScorecard wLogs wSettings "a").coordinationScore :=
  C10_burstRate_eq_coordination wLogs wSettings (analyzeLogsCore wLogs wSettings) rfl
    (mkScorecard wLogs wSettings "a") (List.mem_map.mpr ⟨"a", by decide, rfl⟩)

/-! ## C4 -/

/-- C4, counterexample to the claim as stated: scorecards are not one per
distinct log actor. On a log with one event `a → b`, the engine emits two
scorecards (`a` and `b`), although `b` occurs only as a target, so the
multiset of scorecard actors is not the distinct-actor set `[a]`. -/
theorem C4_counterexample :
    ¬ ((analyzeLogsCore wLogs wSettings).scorecards.map (fun sc => sc.actor)).Perm
        ((wLogs.map (fun l => l.actor)).dedupFirst) := by
  decide

/-- C4, amended: `analyzeLogs` returns exactly one scorecard per distinct
node of the graph — actors and targets alike (analyze.ts lines 326, 451) —
with no duplicates, not one per distinct actor; the list order is the
plain-object key enumeration of `Object.values(actorStats)`: integer-like
node ids ascending first, then the other nodes in first-sighting order. -/
theorem C4_amended_scorecard_per_node (logs : List LogEntry) (s : AnalysisSettings)
    (r : AnalysisResult) (h : analyzeLogs logs s = .ok r) :
    r.scorecards.map (fun sc => sc.actor) =
      jsObjectKeyOrder ((logs.flatMap (fun l => [l.actor, l.target])).dedupFirst) ∧
    (r.scorecards.map (fun sc => sc.actor)).Nodup := by
  rcases analyzeLogs_ok_cases h with ⟨rfl, rfl⟩ | rfl
  · exact ⟨rfl, List.nodup_nil⟩
  · have hmap : (analyzeLogsCore logs s).scorecards.map (fun sc => sc.actor) =
        jsObjectKeyOrder (nodesOf logs) := by
      rw [analyzeLogsCore_scorecards, List.map_map]
      exact List.map_id'' (fun a => rfl) _
    refine ⟨hmap, ?_⟩
    rw [hmap]
    exact (jsObjectKeyOrder_perm _).nodup_iff.mpr (nodup_dedupFirstAux [] _)

/-- Witness for the amended C4 at a concrete input with integer-like node
ids: the log `5 → 3` yields scorecards in ascending numeric key order
`["3", "5"]`, not insertion order `["5", "3"]`. -/
theorem C4_amended_witness :
    (analyzeLogsCore nLogs wSettings).scorecards.map (fun sc => sc.actor) =
      ["3", "5"] ∧
    ((analyzeLogsCore nLogs wSettings).scorecards.map (fun sc => sc.actor)).Nodup :=
  ⟨(C4_amended_scorecard_per_node nLogs wSettings
      (analyzeLogsCore nLogs wSettings) rfl).1.trans (by decide),
   (C4_amended_scorecard_per_node nLogs wSettings
      (analyzeLogsCore nLogs wSettings) rfl).2⟩

/-! ## C9 -/

/-- C9: the returned elements carry exactly one edge record per
positive-action log entry — multi-edges included — and both endpoints of
every edge record appear among the node elements (analyze.ts lines 167-186). -/
theorem C9_edge_count_and_endpoints (logs : List LogEntry) (s : AnalysisSettings)
    (r : AnalysisResult) (h : analyzeLogs logs s = .ok r) :
    r.elements.countP Element.isEdge =
      logs.countP (fun l => decide (l.action ∈ s.positiveActions)) ∧
    ∀ src tgt, Element.edge src tgt ∈ r.elements →
      Element.node src src ∈ r.elements ∧ Element.node tgt tgt ∈ r.elements := by
  rcases analyzeLogs_ok_cases h with ⟨rfl, rfl⟩ | rfl
  · exact ⟨rfl, by intro src tgt hmem; simp at hmem⟩
  · rw [analyzeLogsCore_elements]
    constructor
    · unfold elementsOf
      rw [List.countP_append]
      have h1 : List.countP Element.isEdge
          ((nodesOf logs).map (fun id => Element.node id id)) = 0 := by
        rw [List.countP_eq_zero]
        intro e he
        rw [List.mem_map] at he
        obtain ⟨x, _, rfl⟩ := he
        simp [Element.isEdge]
      have h2 : List.countP Element.isEdge
          ((edgesOf logs s.positiveActions).map (fun e => Element.edge e.1 e.2)) =
          ((edgesOf logs s.positiveActions).map (fun e => Element.edge e.1 e.2)).length := by
        rw [List.countP_eq_length]
        intro e he
        rw [List.mem_map] at he
        obtain ⟨x, _, rfl⟩ := he
        rfl
      rw [h1, h2, zero_add, List.length_map]
      unfold edgesOf
      rw [List.length_map, (List.countP_eq_length_filter _ _).symm]
    · intro src tgt hmem
      unfold elementsOf at hmem
      rcases List.mem_append.mp hmem with hmem | hmem
      · rw [List.mem_map] at hmem
        obtain ⟨x, _, hx⟩ := hmem
        cases hx
      · rw [List.mem_map] at hmem
        obtain ⟨e, he, hx⟩ := hmem
        rw [Element.edge.injEq] at hx
        obtain ⟨rfl, rfl⟩ := hx
        unfold edgesOf at he
        rw [List.mem_map] at he
        obtain ⟨l, hl, rfl⟩ := he
        have hl' := List.mem_of_mem_filter hl
        have hsrc : l.actor ∈ nodesOf logs := by
          unfold nodesOf
          rw [mem_dedupFirst, List.mem_flatMap]
          exact ⟨l, hl', by simp⟩
        have htgt : l.target ∈ nodesOf logs := by
          unfold nodesOf
          rw [mem_dedupFirst, List.mem_flatMap]
          exact ⟨l, hl', by simp⟩
        unfold elementsOf
        constructor
        · exact List.mem_append.mpr (Or.inl (List.mem_map.mpr ⟨l.actor, hsrc, rfl⟩))
        · exact List.mem_append.mpr (Or.inl (List.mem_map.mpr ⟨l.target, htgt, rfl⟩))

/-- Witness for C9 at a concrete input. -/
theorem C9_witness :
    (analyzeLogsCore wLogs wSettings).elements.countP Element.isEdge =
      wLogs.countP (fun l => decide (l.action ∈ wSettings.positiveActions)) ∧
    ∀ src tgt, Element.edge src tgt ∈ (analyzeLogsCore wLogs wSettings).elements →
      Element.node src src ∈ (analyzeLogsCore wLogs wSettings).elements ∧
      Element.node tgt tgt ∈ (analyzeLogsCore wLogs wSettings).elements :=
  C9_edge_count_and_endpoints wLogs wSettings (analyzeLogsCore wLogs wSettings) rfl

/-! ## C5 -/

/-- C5: every window-method wave of the result passes the Poisson z-filter
`z ≥ 2.5` (analyze.ts line 875, via its decidable square form `zAccept`),
carries at least `burstMinActors` distinct actors (line 869; the code clamps
the minimum to `max(1, burstMinActors)`, which the hypothesis
`1 ≤ burstMinActors` makes exact), and at most 250 window waves are emitted
(line 899). -/
theorem C5_window_wave_bounds (logs : List LogEntry) (s : AnalysisSettings)
    (r : AnalysisResult) (hbma : 1 ≤ s.burstMinActors)
    (h : analyzeLogs logs s = .ok r) :
    (∀ w ∈ r.waves, w.method = .window →
      (5/2 : ℝ) ≤ w.zScore ∧ s.burstMinActors ≤ w.actors.length) ∧
    r.waves.countP (fun w => decide (w.method = .window)) ≤ 250 := by
  rcases analyzeLogs_ok_cases h with ⟨rfl, rfl⟩ | rfl
  · exact ⟨by intro w hw; simp at hw, by simp⟩
  · rw [analyzeLogsCore_waves]
    constructor
    · intro w hw hm
      have hw' : w ∈ windowWavesOf logs s := by
        unfold wavesOf at hw
        rcases List.mem_append.mp hw with hb | hb
        · rw [binWavesOf_method hb] at hm
          cases hm
        · exact hb
      obtain ⟨rb, hrb, rfl⟩ := mem_windowWavesOf hw'
      obtain ⟨_, hact, hz⟩ := mem_rawBurstsOf (mem_settingsBurstsOf hrb)
      exact ⟨zAccept_le _ _ hz, le_trans (le_max_right 1 s.burstMinActors) hact⟩
    · unfold wavesOf
      rw [List.countP_append]
      have h1 : (binWavesOf logs s).countP (fun w => decide (w.method = .window)) = 0 := by
        rw [List.countP_eq_zero]
        intro w hw
        simp [binWavesOf_method hw]
      have h2 := List.countP_le_length
        (fun w => decide (w.method = WaveMethod.window)) (l := windowWavesOf logs s)
      have h3 : (windowWavesOf logs s).length ≤ 250 := by
        unfold windowWavesOf
        rw [List.length_map]
        exact settingsBurstsOf_length_le logs s
      omega

/-- Witness for C5 at a concrete input. -/
theorem C5_witness :
    (∀ w ∈ (analyzeLogsCore wLogs wSettings).waves, w.method = .window →
      (5/2 : ℝ) ≤ w.zScore ∧ wSettings.burstMinActors ≤ w.actors.length) ∧
    (analyzeLogsCore wLogs wSettings).waves.countP
      (fun w => decide (w.method = .window)) ≤ 250 :=
  C5_window_wave_bounds wLogs wSettings (analyzeLogsCore wLogs wSettings) (by decide) rfl

lemma reasonsList_threshold {threshold : ℚ} {sybil : ℝ} {coordination : ℚ}
    {churn : ℕ} {isolation : ℚ} {clusterSize minClusterSize : ℕ}
    {lowDiversity : ℚ} {suspicious phishing shared : List String}
    {bioSim handleScore newAccount pagerank betweenness : ℚ} {maxApm : ℕ}
    {rapidThreshold : ℚ} {velocity : VelocityInfo} {velocityWindowSeconds : ℚ}
    {ngram : NgramInfo} {activeHours : ℕ} {circadian : ℚ}
    {entropyMinTotalActions totalActions : ℕ} {entropy : ℝ}
    {sharedWallets crossAppPlatforms : List String} {session : SessionInfo}
    {fraud : ℝ} (h : (threshold : ℝ) < sybil) :
    reasonsList threshold sybil coordination churn isolation clusterSize
        minClusterSize lowDiversity suspicious phishing shared bioSim handleScore
        newAccount pagerank betweenness maxApm rapidThreshold velocity
        velocityWindowSeconds ngram activeHours circadian entropyMinTotalActions
        totalActions entropy sharedWallets crossAppPlatforms session fraud ≠ [] ∧
      Reason.thresholdCrossed sybil threshold ∈
        reasonsList threshold sybil coordination churn isolation clusterSize
          minClusterSize lowDiversity suspicious phishing shared bioSim handleScore
          newAccount pagerank betweenness maxApm rapidThreshold velocity
          velocityWindowSeconds ngram activeHours circadian entropyMinTotalActions
          totalActions entropy sharedWallets crossAppPlatforms session fraud := by
  unfold reasonsList
  rw [if_pos h]
  refine ⟨fun hc => ?_, ?_⟩
  · simp only [List.append_eq_nil] at hc
    exact List.cons_ne_nil _ _ hc.1.1.1.1.1.1.1.1.1.1.1.1.1.1.1.1.1.1.1.1.1
  · simp only [List.mem_append]
    exact Or.inl (Or.inl (Or.inl (Or.inl (Or.inl (Or.inl (Or.inl (Or.inl (Or.inl (Or.inl
      (Or.inl (Or.inl (Or.inl (Or.inl (Or.inl (Or.inl (Or.inl (Or.inl (Or.inl (Or.inl
      (Or.inl (List.mem_singleton_self _)))))))))))))))))))))

/-! ## C8 -/

/-- C8: a scorecard whose `sybilScore` exceeds the threshold has a non-empty
reason list that contains the threshold clause — the clause is pushed first,
before any other reason (analyze.ts lines 524-525). -/
theorem C8_threshold_clause (logs : List LogEntry) (s : AnalysisSettings)
    (r : AnalysisResult) (h : analyzeLogs logs s = .ok r) :
    ∀ sc ∈ r.scorecards, (s.threshold : ℝ) < sc.sybilScore →
      sc.reasons ≠ [] ∧
      Reason.thresholdCrossed sc.sybilScore s.threshold ∈ sc.reasons := by
  intro sc hsc hlt
  rcases analyzeLogs_ok_cases h with ⟨rfl, rfl⟩ | rfl
  · simp at hsc
  · rw [analyzeLogsCore_scorecards, List.mem_map] at hsc
    obtain ⟨a, _, rfl⟩ := hsc
    have hlt' : (s.threshold : ℝ) < sybilScoreOf logs s a := hlt
    constructor
    · exact (reasonsList_threshold hlt').1
    · exact (reasonsList_threshold hlt').2

/-- Witness for C8 at a concrete input with a negative threshold: the lone
actor's score is nonnegative, hence above the threshold, and its reason list
starts with the threshold clause. -/
theorem C8_witness :
    (mkScorecard wLogs wSettings "a").reasons ≠ [] ∧
      Reason.thresholdCrossed (mkScorecard wLogs wSettings "a").sybilScore
        wSettings.threshold ∈ (mkScorecard wLogs wSettings "a").reasons :=
  C8_threshold_clause wLogs wSettings (analyzeLogsCore wLogs wSettings) rfl
    (mkScorecard wLogs wSettings "a")
    (List.mem_map.mpr ⟨"a", by decide, rfl⟩)
    (by
      have h0 : (0:ℝ) ≤ sybilScoreOf wLogs wSettings "a" :=
        sybilScoreOf_nonneg wLogs wSettings "a" (by norm_num [wSettings])
          (by intro q hq; simp [amountsOf, actorLogsOf, wLogs] at hq)
          (Or.inl (by decide))
      have hneg : ((wSettings.threshold : ℚ) : ℝ) < 0 := by norm_num [wSettings]
      exact lt_of_lt_of_le hneg h0)

/-! ## C7 -/

lemma sybilScoreOf_threshold_free (logs : List LogEntry) (s : AnalysisSettings)
    (t : ℚ) (a : String) :
    sybilScoreOf logs { s with threshold := t } a = sybilScoreOf logs s a := rfl

lemma mkScorecard_threshold_free (logs : List LogEntry) (s : AnalysisSettings)
    (t : ℚ) (a : String) :
    { mkScorecard logs { s with threshold := t } a with reasons := [] } =
      { mkScorecard logs s a with reasons := [] } := rfl

/-- C7: raising the flagging threshold never flags a new actor, and every
scorecard field other than `reasons` is unaffected: the threshold is read
only by the flagging comparison and the threshold reason clause
(analyze.ts lines 524-525). -/
theorem C7_threshold_monotone (logs : List LogEntry) (s : AnalysisSettings)
    (t : ℚ) (r r' : AnalysisResult) (hth : s.threshold ≤ t)
    (h : analyzeLogs logs s = .ok r)
    (h' : analyzeLogs logs { s with threshold := t } = .ok r') :
    (∀ sc' ∈ r'.scorecards, (t : ℝ) < sc'.sybilScore →
      ∃ sc ∈ r.scorecards, sc.actor = sc'.actor ∧ (s.threshold : ℝ) < sc.sybilScore) ∧
    List.Forall₂ (fun sc sc' => { sc with reasons := [] } = { sc' with reasons := [] })
      r.scorecards r'.scorecards := by
  have hsc' : r'.scorecards = (jsObjectKeyOrder (nodesOf logs)).map
      (mkScorecard logs { s with threshold := t }) := by
    rcases analyzeLogs_ok_cases h' with ⟨rfl, rfl⟩ | rfl
    · rfl
    · exact analyzeLogsCore_scorecards _ _
  have hsc : r.scorecards = (jsObjectKeyOrder (nodesOf logs)).map (mkScorecard logs s) := by
    rcases analyzeLogs_ok_cases h with ⟨rfl, rfl⟩ | rfl
    · rfl
    · exact analyzeLogsCore_scorecards _ _
  constructor
  · intro sc' hmem hflag
    rw [hsc', List.mem_map] at hmem
    obtain ⟨a, ha, rfl⟩ := hmem
    refine ⟨mkScorecard logs s a, ?_, rfl, ?_⟩
    · rw [hsc]
      exact List.mem_map.mpr ⟨a, ha, rfl⟩
    · have hflag' : (t : ℝ) < sybilScoreOf logs s a := by
        rw [← sybilScoreOf_threshold_free logs s t a]
        exact hflag
      have hcast : ((s.threshold : ℚ) : ℝ) ≤ (t : ℝ) := by exact_mod_cast hth
      exact lt_of_le_of_lt hcast hflag'
  · rw [hsc, hsc']
    rw [List.forall₂_map_right_iff, List.forall₂_map_left_iff]
    refine List.forall₂_same.mpr ?_
    intro a _
    exact mkScorecard_threshold_free logs s t a |>.symm

/-- Witness for C7 at a concrete input (threshold raised from -1 to 1). -/
theorem C7_witness :
    (∀ sc' ∈ (analyzeLogsCore wLogs { wSettings with threshold := 1 }).scorecards,
      ((1 : ℚ) : ℝ) < sc'.sybilScore →
      ∃ sc ∈ (analyzeLogsCore wLogs wSettings).scorecards,
        sc.actor = sc'.actor ∧ (wSettings.threshold : ℝ) < sc.sybilScore) ∧
    List.Forall₂ (fun sc sc' => { sc with reasons := [] } = { sc' with reasons := [] })
      (analyzeLogsCore wLogs wSettings).scorecards
      (analyzeLogsCore wLogs { wSettings with threshold := 1 }).scorecards :=
  C7_threshold_monotone wLogs wSettings 1 (analyzeLogsCore wLogs wSettings)
    (analyzeLogsCore wLogs { wSettings with threshold := 1 })
    (by norm_num [wSettings]) rfl rfl

/-! ## C2 -/

lemma amountsOf_nonneg_of_logs {logs : List LogEntry} (a : String)
    (hamt : ∀ l ∈ logs, ∀ q, l.amount = some q → 0 ≤ q) :
    ∀ q ∈ amountsOf logs a, 0 ≤ q := by
  intro q hq
  rw [amountsOf, List.mem_filterMap] at hq
  obtain ⟨l, hl, he⟩ := hq
  exact hamt l (List.mem_of_mem_filter hl) q he

/-- C2, counterexample to the claim as stated: `clusterIsolationScore` is not
in `[0,1]`. With three parallel positive edges between two nodes, the node's
multigraph degree (3) exceeds its cluster size (2), so the score
`1 - connections / clusterSize` (analyze.ts line 459) is `-1/2`. -/
theorem C2_counterexample :
    analyzeLogs cLogs wSettings = .ok (analyzeLogsCore cLogs wSettings) ∧
      ∃ sc ∈ (analyzeLogsCore cLogs wSettings).scorecards,
        sc.clusterIsolationScore < 0 := by
  refine ⟨rfl, mkScorecard cLogs wSettings "a", ?_, ?_⟩
  · rw [analyzeLogsCore_scorecards]
    exact List.mem_map.mpr ⟨"a", by decide, rfl⟩
  · have hconn : connectionsOf cLogs wSettings.positiveActions "a" = 3 := by decide
    have hcs : clusterSizeOf cLogs wSettings.positiveActions
        wSettings.minClusterSize "a" = 2 := by decide
    simp only [mkScorecard]
    unfold clusterIsolationScoreOf
    dsimp only
    rw [hcs, hconn]
    norm_num

/-- C2, amended: under a positive rapid-action threshold and nonnegative
transaction amounts, every scorecard has `sybilScore ≤ 1` and
`clusterIsolationScore ≤ 1` (their lower bounds can fail: the sybil score is
only clamped from above at analyze.ts line 522, and the isolation score is
negative whenever the multigraph degree exceeds the cluster size), and every
other non-counter score field lies in `[0,1]`. -/
theorem C2_amended_score_bounds (logs : List LogEntry) (s : AnalysisSettings)
    (r : AnalysisResult) (h : analyzeLogs logs s = .ok r)
    (hth : 0 < s.rapidActionsPerMinuteThreshold)
    (hamt : ∀ l ∈ logs, ∀ q, l.amount = some q → 0 ≤ q) :
    ∀ sc ∈ r.scorecards,
      sc.sybilScore ≤ 1 ∧
      sc.clusterIsolationScore ≤ 1 ∧
      (0 ≤ sc.coordinationScore ∧ sc.coordinationScore ≤ 1) ∧
      (0 ≤ sc.newAccountScore ∧ sc.newAccountScore ≤ 1) ∧
      (0 ≤ sc.lowDiversityScore ∧ sc.lowDiversityScore ≤ 1) ∧
      (0 ≤ sc.profileAnomalyScore ∧ sc.profileAnomalyScore ≤ 1) ∧
      (0 ≤ sc.rapidActionScore ∧ sc.rapidActionScore ≤ 1) ∧
      (0 ≤ sc.velocityScore ∧ sc.velocityScore ≤ 1) ∧
      (0 ≤ sc.targetEntropy ∧ sc.targetEntropy ≤ 1) ∧
      (0 ≤ sc.lowEntropyScore ∧ sc.lowEntropyScore ≤ 1) ∧
      (0 ≤ sc.hourEntropy ∧ sc.hourEntropy ≤ 1) ∧
      (0 ≤ sc.circadianScore ∧ sc.circadianScore ≤ 1) ∧
      (0 ≤ sc.actionSequenceRepeatScore ∧ sc.actionSequenceRepeatScore ≤ 1) ∧
      (0 ≤ sc.bioSimilarityScore ∧ sc.bioSimilarityScore ≤ 1) ∧
      (0 ≤ sc.handlePatternScore ∧ sc.handlePatternScore ≤ 1) ∧
      (0 ≤ sc.phishingLinkScore ∧ sc.phishingLinkScore ≤ 1) ∧
      (0 ≤ sc.fraudTxScore ∧ sc.fraudTxScore ≤ 1) ∧
      (0 ≤ sc.reciprocalRate ∧ sc.reciprocalRate ≤ 1) ∧
      (0 ≤ sc.burstRate ∧ sc.burstRate ≤ 1) ∧
      (0 ≤ sc.linkDiversity ∧ sc.linkDiversity ≤ 1) := by
  intro sc hsc
  rcases analyzeLogs_ok_cases h with ⟨rfl, rfl⟩ | rfl
  · simp at hsc
  · rw [analyzeLogsCore_scorecards, List.mem_map] at hsc
    obtain ⟨a, _, rfl⟩ := hsc
    simp only [mkScorecard]
    refine ⟨sybilScoreOf_le_one logs s a,
      clusterIsolationScoreOf_le_one logs s.positiveActions s.minClusterSize a,
      ⟨coordinationScoreOf_nonneg logs s a, coordinationScoreOf_le_one logs s a⟩,
      ⟨newAccountScoreOf_nonneg logs a, newAccountScoreOf_le_one logs a⟩,
      ⟨lowDiversityScoreOf_nonneg logs a, lowDiversityScoreOf_le_one logs a⟩,
      ⟨profileAnomalyScoreOf_nonneg logs a, profileAnomalyScoreOf_le_one logs a⟩,
      ⟨rapidActionScoreOf_nonneg logs s.rapidActionsPerMinuteThreshold a hth,
        rapidActionScoreOf_le_one logs s.rapidActionsPerMinuteThreshold a⟩,
      ⟨velocityScore_nonneg logs s a, velocityScore_le_one logs s a⟩,
      ⟨targetEntropyOf_nonneg logs a, targetEntropyOf_le_one logs a⟩,
      ⟨?_, ?_⟩,
      ⟨hourEntropyOf_nonneg logs a, hourEntropyOf_le_one logs a⟩,
      ⟨circadianScoreOf_nonneg logs a, circadianScoreOf_le_one logs a⟩,
      ⟨ngramRepeatScore_nonneg logs a (ngramNOf s),
        ngramRepeatScore_le_one logs a (ngramNOf s)⟩,
      ⟨bioSimilarityScoreOf_nonneg logs a, bioSimilarityScoreOf_le_one logs a⟩,
      ⟨handlePatternScoreOf_nonneg (nodesOf logs) a,
        handlePatternScoreOf_le_one (nodesOf logs) a⟩,
      ⟨phishingLinkScoreOf_nonneg logs a, phishingLinkScoreOf_le_one logs a⟩,
      ⟨fraudTxScoreOf_nonneg logs a (amountsOf_nonneg_of_logs a hamt),
        fraudTxScoreOf_le_one logs a⟩,
      ⟨reciprocalRateOf_nonneg logs s.positiveActions a,
        reciprocalRateOf_le_one logs s.positiveActions a⟩,
      ⟨?_, ?_⟩,
      ⟨linkDiversityScore_nonneg (linksOf logs a),
        linkDiversityScore_le_one (linksOf logs a)⟩⟩
    · have := targetEntropyOf_le_one logs a
      linarith
    · have := targetEntropyOf_nonneg logs a
      linarith
    · rw [burstRateOf_eq]
      exact coordinationScoreOf_nonneg logs s a
    · rw [burstRateOf_eq]
      exact coordinationScoreOf_le_one logs s a

/-- Witness for the amended C2 at a concrete input. -/
theorem C2_amended_witness :
    (0 : ℚ) < wSettings.rapidActionsPerMinuteThreshold ∧
    ∀ sc ∈ (analyzeLogsCore wLogs wSettings).scorecards,
      sc.sybilScore ≤ 1 ∧
      sc.clusterIsolationScore ≤ 1 ∧
      (0 ≤ sc.coordinationScore ∧ sc.coordinationScore ≤ 1) ∧
      (0 ≤ sc.newAccountScore ∧ sc.newAccountScore ≤ 1) ∧
      (0 ≤ sc.lowDiversityScore ∧ sc.lowDiversityScore ≤ 1) ∧
      (0 ≤ sc.profileAnomalyScore ∧ sc.profileAnomalyScore ≤ 1) ∧
      (0 ≤ sc.rapidActionScore ∧ sc.rapidActionScore ≤ 1) ∧
      (0 ≤ sc.velocityScore ∧ sc.velocityScore ≤ 1) ∧
      (0 ≤ sc.targetEntropy ∧ sc.targetEntropy ≤ 1) ∧
      (0 ≤ sc.lowEntropyScore ∧ sc.lowEntropyScore ≤ 1) ∧
      (0 ≤ sc.hourEntropy ∧ sc.hourEntropy ≤ 1) ∧
      (0 ≤ sc.circadianScore ∧ sc.circadianScore ≤ 1) ∧
      (0 ≤ sc.actionSequenceRepeatScore ∧ sc.actionSequenceRepeatScore ≤ 1) ∧
      (0 ≤ sc.bioSimilarityScore ∧ sc.bioSimilarityScore ≤ 1) ∧
      (0 ≤ sc.handlePatternScore ∧ sc.handlePatternScore ≤ 1) ∧
      (0 ≤ sc.phishingLinkScore ∧ sc.phishingLinkScore ≤ 1) ∧
      (0 ≤ sc.fraudTxScore ∧ sc.fraudTxScore ≤ 1) ∧
      (0 ≤ sc.reciprocalRate ∧ sc.reciprocalRate ≤ 1) ∧
      (0 ≤ sc.burstRate ∧ sc.burstRate ≤ 1) ∧
      (0 ≤ sc.linkDiversity ∧ sc.linkDiversity ≤ 1) :=
  ⟨by norm_num [wSettings],
    C2_amended_score_bounds wLogs wSettings (analyzeLogsCore wLogs wSettings) rfl
      (by norm_num [wSettings])
      (by
        intro l hl q hq
        rw [wLogs, List.mem_singleton] at hl
        subst hl
        exact Option.noConfusion hq)⟩

/-! ## C3 -/

lemma mem_clustersOf_bounds {logs : List LogEntry} {positiveActions : List String}
    {minClusterSize : ℕ} {c : DetailedCluster}
    (hc : c ∈ clustersOf logs positiveActions minClusterSize) :
    minClusterSize ≤ c.members.length ∧ 0 ≤ c.density ∧
      0 ≤ c.conductance ∧ c.conductance ≤ 1 := by
  unfold clustersOf at hc
  dsimp only at hc
  rw [List.mem_map] at hc
  obtain ⟨p, hp, rfl⟩ := hc
  have hmem : p.2 ∈ (componentsOf logs positiveActions).filter
      (fun c => decide (minClusterSize ≤ c.length)) := by
    have := List.mem_map_of_mem Prod.snd hp
    rwa [List.enum_map_snd] at this
  have hlen : minClusterSize ≤ p.2.length :=
    of_decide_eq_true (List.mem_filter.mp hmem).2
  refine ⟨hlen, ?_, ?_, ?_⟩
  · dsimp only
    split
    · rename_i hpos
      exact div_nonneg (by positivity) hpos.le
    · exact le_refl 0
  · dsimp only
    split
    · rename_i hpos
      exact div_nonneg (by positivity) hpos.le
    · exact le_refl 0
  · dsimp only
    split
    · rename_i hpos
      rw [div_le_one hpos]
      have h2 : (0:ℚ) ≤ (((p.2.map (fun n =>
          ((adjOf (edgesOf logs positiveActions) n).filter
            (fun m => decide (m ∈ p.2))).length)).sum : ℚ)) / 2 := by positivity
      linarith
    · exact zero_le_one

lemma cLogs_clusters :
    clustersOf cLogs wSettings.positiveActions wSettings.minClusterSize =
      [DetailedCluster.mk 0 ["a", "b"] 3 0 0] := by
  have hcomps : (componentsOf cLogs wSettings.positiveActions).filter
      (fun c => decide (wSettings.minClusterSize ≤ c.length)) = [["a", "b"]] := by
    decide
  unfold clustersOf
  dsimp only
  rw [hcomps]
  rw [show List.enum [["a", "b"]] = [((0:ℕ), ["a", "b"])] from rfl]
  simp only [List.map_cons, List.map_nil, List.cons.injEq, and_true]
  simp [adjOf, edgesOf, cLogs, cLog1, DetailedCluster.mk.injEq, wSettings]
  norm_num

/-- C3, counterexample to the claim as stated: cluster `density` is not in
`[0,1]`. The internal edge count keeps multi-edge multiplicity (analyze.ts
lines 250-252) while `possibleEdges` counts node pairs, so three parallel
edges between two nodes give density `3`. -/
theorem C3_counterexample :
    analyzeLogs cLogs wSettings = .ok (analyzeLogsCore cLogs wSettings) ∧
      ∃ c ∈ (analyzeLogsCore cLogs wSettings).clusters, 1 < c.density := by
  refine ⟨rfl, DetailedCluster.mk 0 ["a", "b"] 3 0 0, ?_, by norm_num⟩
  rw [analyzeLogsCore_clusters, cLogs_clusters]
  exact List.mem_singleton_self _

/-- C3, amended: every returned cluster has at least `minClusterSize` members
and `conductance ∈ [0,1]`, and its `density` is nonnegative — but density is
only bounded above by `1` on simple graphs; with parallel edges it can
exceed `1` (analyze.ts lines 247-258). -/
theorem C3_amended_cluster_bounds (logs : List LogEntry) (s : AnalysisSettings)
    (r : AnalysisResult) (h : analyzeLogs logs s = .ok r) :
    ∀ c ∈ r.clusters, s.minClusterSize ≤ c.members.length ∧
      0 ≤ c.density ∧ 0 ≤ c.conductance ∧ c.conductance ≤ 1 := by
  intro c hc
  rcases analyzeLogs_ok_cases h with ⟨rfl, rfl⟩ | rfl
  · simp at hc
  · rw [analyzeLogsCore_clusters] at hc
    exact mem_clustersOf_bounds hc

/-- Witness for the amended C3 at a concrete input: the one retained cluster
of `cLogs`. -/
theorem C3_amended_witness :
    wSettings.minClusterSize ≤ (DetailedCluster.mk 0 ["a", "b"] 3 0 0).members.length ∧
      0 ≤ (DetailedCluster.mk 0 ["a", "b"] 3 0 0).density ∧
      0 ≤ (DetailedCluster.mk 0 ["a", "b"] 3 0 0).conductance ∧
      (DetailedCluster.mk 0 ["a", "b"] 3 0 0).conductance ≤ 1 :=
  C3_amended_cluster_bounds cLogs wSettings (analyzeLogsCore cLogs wSettings) rfl
    (DetailedCluster.mk 0 ["a", "b"] 3 0 0)
    (by rw [analyzeLogsCore_clusters, cLogs_clusters]; exact List.mem_singleton_self _)

/-! ## C6 -/

lemma binKeysOf_aligned {logs : List LogEntry} {binSize : ℚ}
    {key : ℚ × String × String} (hkey : key ∈ binKeysOf logs binSize) :
    ∃ k : ℤ, key.1 = (k : ℚ) * binSize := by
  rw [binKeysOf, mem_dedupFirst, List.mem_filterMap] at hkey
  obtain ⟨l, _, hl⟩ := hkey
  rw [binKeyOf] at hl
  cases hpt : parseTs l with
  | none =>
    rw [hpt] at hl
    exact absurd hl (by simp)
  | some t =>
    rw [hpt, Option.map_some', Option.some.injEq] at hl
    refine ⟨⌊(t : ℚ) / binSize⌋, ?_⟩
    rw [← hl]
    rfl

/-- C6: on an input accepted by the engine, the `method = bin` waves are
exactly the occurring epoch-aligned `(binStart, action, target)` triples
whose event count reaches `waveMinCount` and whose distinct-actor count
reaches `waveMinActors`; each such wave spans exactly one `timeBinMinutes`
bin aligned to the epoch and carries `zScore = count / max(1, waveMinCount)`
and the bin's distinct actor set (analyze.ts lines 267-297). -/
theorem C6_bin_wave_characterization (logs : List LogEntry) (s : AnalysisSettings)
    (r : AnalysisResult) (h : analyzeLogs logs s = .ok r) :
    (∀ w ∈ r.waves, w.method = .bin →
      ∃ key ∈ binKeysOf logs (binSizeMsOf s.timeBinMinutes),
        s.waveMinCount ≤ binCountOf logs (binSizeMsOf s.timeBinMinutes) key ∧
        s.waveMinActors ≤
          (binActorsOf logs (binSizeMsOf s.timeBinMinutes) key).length ∧
        w.windowStart = key.1 ∧ w.action = key.2.1 ∧ w.target = key.2.2 ∧
        w.windowEnd = key.1 + binSizeMsOf s.timeBinMinutes ∧
        (∃ k : ℤ, key.1 = (k : ℚ) * binSizeMsOf s.timeBinMinutes) ∧
        w.actors = binActorsOf logs (binSizeMsOf s.timeBinMinutes) key ∧
        w.zScore = ((binCountOf logs (binSizeMsOf s.timeBinMinutes) key : ℚ) /
          max 1 (s.waveMinCount : ℚ) : ℚ)) ∧
    (∀ key ∈ binKeysOf logs (binSizeMsOf s.timeBinMinutes),
      s.waveMinCount ≤ binCountOf logs (binSizeMsOf s.timeBinMinutes) key →
      s.waveMinActors ≤
        (binActorsOf logs (binSizeMsOf s.timeBinMinutes) key).length →
      ∃ w ∈ r.waves, w.method = .bin ∧ w.windowStart = key.1 ∧
        w.action = key.2.1 ∧ w.target = key.2.2) := by
  rcases analyzeLogs_ok_cases h with ⟨rfl, rfl⟩ | rfl
  · constructor
    · intro w hw
      simp at hw
    · intro key hkey
      rw [show binKeysOf ([] : List LogEntry) (binSizeMsOf s.timeBinMinutes) = []
        from rfl] at hkey
      cases hkey
  · constructor
    · intro w hw hbin
      rw [analyzeLogsCore_waves] at hw
      rcases List.mem_append.mp hw with hb | hwin
      · have halign : ∀ key ∈ binKeysOf logs (binSizeMsOf s.timeBinMinutes),
            ∃ k : ℤ, key.1 = (k : ℚ) * binSizeMsOf s.timeBinMinutes :=
          fun _ hk => binKeysOf_aligned hk
        unfold binWavesOf at hb
        rw [List.mem_filterMap] at hb
        obtain ⟨key, hkey, hmk⟩ := hb
        dsimp only at hmk
        split at hmk
        · rename_i hcond
          rw [Option.some.injEq] at hmk
          subst hmk
          exact ⟨key, hkey, hcond.1, hcond.2, rfl, rfl, rfl, rfl,
            halign key hkey, rfl, rfl⟩
        · exact absurd hmk (by simp)
      · obtain ⟨rb, _, rfl⟩ := mem_windowWavesOf hwin
        exact absurd hbin (by simp [RawBurst.toWave])
    · intro key hkey hcnt hact
      refine
        ⟨{ windowStart := key.1, windowEnd := key.1 + binSizeMsOf s.timeBinMinutes,
           action := key.2.1, target := key.2.2,
           actors := binActorsOf logs (binSizeMsOf s.timeBinMinutes) key,
           zScore := ((binCountOf logs (binSizeMsOf s.timeBinMinutes) key : ℚ) /
             max 1 (s.waveMinCount : ℚ) : ℚ),
           method := .bin },
         ?_, rfl, rfl, rfl, rfl⟩
      rw [analyzeLogsCore_waves]
      refine List.mem_append_left _ ?_
      unfold binWavesOf
      dsimp only
      rw [List.mem_filterMap]
      refine ⟨key, hkey, ?_⟩
      dsimp only
      rw [if_pos ⟨hcnt, hact⟩]

/-- Witness for C6 at a concrete input. -/
theorem C6_witness :
    (∀ w ∈ (analyzeLogsCore wLogs wSettings).waves, w.method = .bin →
      ∃ key ∈ binKeysOf wLogs (binSizeMsOf wSettings.timeBinMinutes),
        wSettings.waveMinCount ≤
          binCountOf wLogs (binSizeMsOf wSettings.timeBinMinutes) key ∧
        wSettings.waveMinActors ≤
          (binActorsOf wLogs (binSizeMsOf wSettings.timeBinMinutes) key).length ∧
        w.windowStart = key.1 ∧ w.action = key.2.1 ∧ w.target = key.2.2 ∧
        w.windowEnd = key.1 + binSizeMsOf wSettings.timeBinMinutes ∧
        (∃ k : ℤ, key.1 = (k : ℚ) * binSizeMsOf wSettings.timeBinMinutes) ∧
        w.actors = binActorsOf wLogs (binSizeMsOf wSettings.timeBinMinutes) key ∧
        w.zScore =
          ((binCountOf wLogs (binSizeMsOf wSettings.timeBinMinutes) key : ℚ) /
            max 1 (wSettings.waveMinCount : ℚ) : ℚ)) ∧
    (∀ key ∈ binKeysOf wLogs (binSizeMsOf wSettings.timeBinMinutes),
      wSettings.waveMinCount ≤
        binCountOf wLogs (binSizeMsOf wSettings.timeBinMinutes) key →
      wSettings.waveMinActors ≤
        (binActorsOf wLogs (binSizeMsOf wSettings.timeBinMinutes) key).length →
      ∃ w ∈ (analyzeLogsCore wLogs wSettings).waves, w.method = .bin ∧
        w.windowStart = key.1 ∧ w.action = key.2.1 ∧ w.target = key.2.2) :=
  C6_bin_wave_characterization wLogs wSettings (analyzeLogsCore wLogs wSettings) rfl

end SybilShield
